import Mathlib

/-!
# Exynos power-domain driver (drivers/soc/samsung/exynos-pd.c)

A shallow embedding of the power-domain transition callbacks
(exynos_pd_power_on, exynos_pd_power_off, exynos_pd_status), of the
device-tree driven construction (exynos_pd_dt_parse) and of the lookup by name
(exynos_pd_lookup_name).

Calls that leave the driver (the CAL hardware layer, the idle-ip table, devfreq
voltage synchronisation, BTS, BCM, the mutex) are recorded, in program order,
in a trace of events.  What such a call returns is given by an environment
whose answers may depend on everything that happened before (the trace so
far).  Diagnostic printing (pr_err, pr_info, pr_debug, DEBUG_PRINT_INFO) has no
effect on the driver state and is left out.
-/

namespace ExynosPd

/-! ## Constants -/

/-- Linux errno value EAGAIN. -/
def EAGAIN : Int := 11
/-- Linux errno value ENOMEM. -/
def ENOMEM : Int := 12
/-- Linux errno value ENODEV. -/
def ENODEV : Int := 19
/-- Linux errno value EINVAL. -/
def EINVAL : Int := 22
/-- Linux errno value ENOENT. -/
def ENOENT : Int := 2

/-- The bound on the number of "parent" references read per node
(exynos-pd.h, MAX_PARENT_POWER_DOMAIN). -/
def MAX_PARENT_POWER_DOMAIN : Nat := 15

/-! ## Data model -/

/-- Identity of a device-tree node: the i-th node compatible with
"samsung,exynos-pd", or the j-th child node of the i-th such node. -/
inductive node_ref where
  | pd (i : Nat)
  | spd (i j : Nat)
  deriving DecidableEq, Repr

/-- The functions ever stored in the pd_control function pointer. -/
inductive pd_control_fn where
  | cal_pd_control
  deriving DecidableEq, Repr

/-- The functions ever stored in the check_status function pointer. -/
inductive check_status_fn where
  | exynos_pd_status
  deriving DecidableEq, Repr

/-- The callbacks stored in the generic domain by exynos_pd_genpd_init. -/
inductive genpd_callback where
  | exynos_pd_power_on
  | exynos_pd_power_off
  deriving DecidableEq, Repr

/-- Status of a generic power domain as pm_genpd_init sets it: active, or
powered off. -/
inductive gpd_status where
  | GPD_STATE_ACTIVE
  | GPD_STATE_POWER_OFF
  deriving DecidableEq, Repr

/-- The part of struct generic_pm_domain that the driver writes. The status
is the state recorded at construction from the initial hardware query
(third argument of pm_genpd_init); none before pm_genpd_init has run. -/
structure generic_pm_domain where
  name : String
  power_off : Option genpd_callback
  power_on : Option genpd_callback
  power_on_latency_ns : Nat
  power_off_latency_ns : Nat
  status : Option gpd_status
  deriving DecidableEq, Repr

/-- The struct exynos_pm_domain of exynos-pd.h. The access_lock is not a
field here: locking and unlocking it are trace events. A NULL pointer is
none; bcm exists only under CONFIG_EXYNOS_BCM. -/
structure exynos_pm_domain where
  genpd : generic_pm_domain
  name : String
  cal_pdid : Nat
  of_node : Option node_ref
  pd_control : Option pd_control_fn
  check_status : Option check_status_fn
  bts : Nat
  devfreq_index : Int
  idle_ip_index : Int
  bcm : Option Nat
  check_cp_status : Bool
  deriving DecidableEq, Repr

/-- What kzalloc returns: every field zero, every pointer NULL. -/
def kzalloc_pd : exynos_pm_domain :=
  { genpd := { name := "", power_off := none, power_on := none,
               power_on_latency_ns := 0, power_off_latency_ns := 0, status := none },
    name := "", cal_pdid := 0, of_node := none, pd_control := none,
    check_status := none, bts := 0, devfreq_index := 0, idle_ip_index := 0,
    bcm := none, check_cp_status := false }

/-- Calls that leave the driver, in the order they are made. -/
inductive Event where
  | mutex_lock (name : String)
  | mutex_unlock (name : String)
  | exynos_update_ip_idle_status (index : Int) (idle : Int)
  | exynos_devfreq_sync_voltage (index : Int) (turn_on : Bool)
  | cal_pd_status (cal_pdid : Nat) (ret : Int)
  | bcm_pd_sync (bcm : Nat) (enable : Bool)
  | bts_initialize (name : String) (enable : Bool)
  | pd_control (cal_pdid : Nat) (power : Int) (ret : Int)
  | kzalloc (ok : Bool)
  | mutex_init (name : String)
  | of_genpd_add_provider (node : node_ref)
  deriving DecidableEq, Repr

/-- The environment of the driver: the build configuration and the answers of
the external functions, each as a function of the trace so far. -/
structure Env where
  config_exynos_bcm : Bool
  cal_pd_control : List Event → Nat → Int → Int
  cal_pd_status : List Event → Nat → Int
  is_cp_aud_enabled : List Event → Bool
  is_test_cp_call_set : List Event → Bool
  exynos_get_idle_ip_index : String → Int
  kzalloc : List Event → Bool

/-- The state a transition callback works on: the domain object it is given
and the trace of external calls. -/
structure pd_state where
  pd : exynos_pm_domain
  trace : List Event

/-- Append one event to the trace. -/
def pd_state.emit (s : pd_state) (e : Event) : pd_state :=
  { s with trace := s.trace ++ [e] }

/-! ## Transition hooks (exynos-pd.c lines 59-101) -/

/-- The function exynos_pd_power_on_pre. -/
def exynos_pd_power_on_pre (s : pd_state) : pd_state :=
  let s1 := s.emit (Event.exynos_update_ip_idle_status s.pd.idle_ip_index 0)
  if s.pd.devfreq_index ≥ 0 then
    s1.emit (Event.exynos_devfreq_sync_voltage s.pd.devfreq_index true)
  else s1

/-- The function exynos_pd_power_on_post: under CONFIG_EXYNOS_BCM the status
is queried first, then the bcm pointer is tested. -/
def exynos_pd_power_on_post (env : Env) (s : pd_state) : pd_state :=
  if env.config_exynos_bcm then
    let st := env.cal_pd_status s.trace s.pd.cal_pdid
    let s1 := s.emit (Event.cal_pd_status s.pd.cal_pdid st)
    if st ≠ 0 then
      match s.pd.bcm with
      | some b => s1.emit (Event.bcm_pd_sync b true)
      | none => s1
    else s1
  else s

/-- The function exynos_pd_power_off_pre (the block under "if 0" is not
compiled). -/
def exynos_pd_power_off_pre (env : Env) (s : pd_state) : pd_state :=
  if env.config_exynos_bcm then
    let st := env.cal_pd_status s.trace s.pd.cal_pdid
    let s1 := s.emit (Event.cal_pd_status s.pd.cal_pdid st)
    if st ≠ 0 then
      match s.pd.bcm with
      | some b => s1.emit (Event.bcm_pd_sync b false)
      | none => s1
    else s1
  else s

/-- The function exynos_pd_power_off_post. -/
def exynos_pd_power_off_post (s : pd_state) : pd_state :=
  let s1 := s.emit (Event.exynos_update_ip_idle_status s.pd.idle_ip_index 1)
  if s.pd.devfreq_index ≥ 0 then
    s1.emit (Event.exynos_devfreq_sync_voltage s.pd.devfreq_index false)
  else s1

/-- The function exynos_pd_prepare_forced_off: its body is empty. -/
def exynos_pd_prepare_forced_off (s : pd_state) : pd_state := s

/-- Call through the pd_control pointer: ask the environment and record the
call with its result. -/
def call_pd_control (env : Env) (f : pd_control_fn) (s : pd_state) (power : Int) :
    Int × pd_state :=
  match f with
  | pd_control_fn.cal_pd_control =>
    let ret := env.cal_pd_control s.trace s.pd.cal_pdid power
    (ret, s.emit (Event.pd_control s.pd.cal_pdid power ret))

/-- The test "pd->check_cp_status && (is_cp_aud_enabled() ||
is_test_cp_call_set())", evaluated at the time of the call. -/
def cp_call_skip (env : Env) (s : pd_state) : Bool :=
  s.pd.check_cp_status && (env.is_cp_aud_enabled s.trace || env.is_test_cp_call_set s.trace)

/-! ## Transition callbacks (exynos-pd.c lines 103-191) -/

/-- The state of exynos_pd_power_on right before its pd_control call: lock
taken, exynos_pd_power_on_pre run. -/
def power_on_entry (s : pd_state) : pd_state :=
  exynos_pd_power_on_pre (s.emit (Event.mutex_lock s.pd.name))

/-- The function exynos_pd_power_on: return value and state afterwards. -/
def exynos_pd_power_on (env : Env) (s : pd_state) : Int × pd_state :=
  match s.pd.pd_control with
  | none => (0, s)
  | some f =>
    if cp_call_skip env s then (0, s)
    else
      let s2 := power_on_entry s
      let (ret, s3) := call_pd_control env f s2 1
      if ret ≠ 0 then
        let s4 := exynos_pd_power_off_post s3
        (-EAGAIN, s4.emit (Event.mutex_unlock s.pd.name))
      else
        let s4 := exynos_pd_power_on_post env s3
        let s5 := if s.pd.bts ≠ 0 then s4.emit (Event.bts_initialize s.pd.name true) else s4
        (0, s5.emit (Event.mutex_unlock s.pd.name))

/-- The state in which exynos_pd_power_off runs exynos_pd_power_off_pre: lock
taken, BTS disabled if present. -/
def power_off_locked (s : pd_state) : pd_state :=
  let s1 := s.emit (Event.mutex_lock s.pd.name)
  if s.pd.bts ≠ 0 then s1.emit (Event.bts_initialize s.pd.name false) else s1

/-- The state of exynos_pd_power_off right before its first pd_control call:
lock taken, BTS disabled if present, exynos_pd_power_off_pre run. -/
def power_off_entry (env : Env) (s : pd_state) : pd_state :=
  exynos_pd_power_off_pre env (power_off_locked s)

/-- The function exynos_pd_power_off: return value and state afterwards. -/
def exynos_pd_power_off (env : Env) (s : pd_state) : Int × pd_state :=
  match s.pd.pd_control with
  | none => (0, s)
  | some f =>
    if cp_call_skip env s then (0, s)
    else
      let s3 := power_off_entry env s
      let (ret, s4) := call_pd_control env f s3 0
      if ret ≠ 0 then
        if ret = -4 then
          let s5 := exynos_pd_prepare_forced_off s4
          let (ret2, s6) := call_pd_control env f s5 0
          if ret2 ≠ 0 then
            (ret2, s6.emit (Event.mutex_unlock s.pd.name))
          else
            let s7 := exynos_pd_power_off_post s6
            (ret2, s7.emit (Event.mutex_unlock s.pd.name))
        else
          (ret, s4.emit (Event.mutex_unlock s.pd.name))
      else
        let s5 := exynos_pd_power_off_post s4
        (ret, s5.emit (Event.mutex_unlock s.pd.name))

/-- The function exynos_pd_status; a NULL argument is none. -/
def exynos_pd_status (env : Env) (pd : Option exynos_pm_domain) (trace : List Event) :
    Int × Option exynos_pm_domain × List Event :=
  match pd with
  | none => (-EINVAL, none, trace)
  | some d =>
    let t1 := trace ++ [Event.mutex_lock d.name]
    let status := env.cal_pd_status t1 d.cal_pdid
    let t2 := t1 ++ [Event.cal_pd_status d.cal_pdid status]
    (status, some d, t2 ++ [Event.mutex_unlock d.name])

/-- The state recorded in the domain object (the last_known_state of the
specification): the status of the embedded generic domain, written by
pm_genpd_init at construction. -/
def last_known_state (pd : exynos_pm_domain) : Option gpd_status := pd.genpd.status

/-! ## Device tree and construction (exynos-pd.c lines 193-450)

The nodes that for_each_compatible_node yields for "samsung,exynos-pd" are a
list; a node is identified by its position in that list, a child node by the
position of its parent and its own position among the children.  A "parent"
phandle is the position of the node it points to.  Every such node has a
platform device (the source notes "should have value"); the driver data
attached to the devices is the drvdata map.  Memory for the name copies
(kstrdup) is taken to be available. -/

/-- A child node of a power-domain node: a logical sub-domain. The field pdev
tells whether of_find_device_by_node or of_platform_device_create yields a
platform device for it. -/
structure sub_node where
  name : String
  devfreq_sync_voltage : Option Nat
  bts_status : Option String
  pdev : Bool
  deriving DecidableEq, Repr

/-- A node compatible with "samsung,exynos-pd": its name, availability
(of_device_is_available), the properties the driver reads (an absent property
is none), its "parent" phandles and its child nodes. -/
structure device_node where
  name : String
  available : Bool
  cal_id : Option Nat
  devfreq_sync_voltage : Option Nat
  check_cp_status : Option String
  bts_status : Option String
  parent : List Nat
  children : List sub_node
  deriving DecidableEq, Repr

/-- The driver-wide state that construction builds: the driver data attached
to the platform devices (newest first), the subdomain links (master, slave)
in the order they were added, and the trace of external calls. -/
structure pd_system where
  drvdata : List (node_ref × exynos_pm_domain)
  links : List (node_ref × node_ref)
  trace : List Event

/-- The state before exynos_pd_dt_parse has run. -/
def pd_system.empty : pd_system := { drvdata := [], links := [], trace := [] }

/-- Append one event to the trace. -/
def pd_system.emit (s : pd_system) (e : Event) : pd_system :=
  { s with trace := s.trace ++ [e] }

/-- The call platform_set_drvdata on the device of a node. -/
def platform_set_drvdata (s : pd_system) (r : node_ref) (d : exynos_pm_domain) : pd_system :=
  { s with drvdata := (r, d) :: s.drvdata }

/-- The call platform_get_drvdata on the device of a node; none is NULL. -/
def platform_get_drvdata (s : pd_system) (r : node_ref) : Option exynos_pm_domain :=
  s.drvdata.lookup r

/-- Modelled from the spec: pm_genpd_add_subdomain of the generic power-domain
framework, which is not among the sources. The specification (4.2) has the
domain attached as a child of the parent, so the link is recorded; a refusal
by the framework, which the driver only logs, is not modelled. -/
def pm_genpd_add_subdomain (s : pd_system) (master slave : node_ref) : pd_system :=
  { s with links := s.links ++ [(master, slave)] }

/-- The function of_device_bts_is_available on the "bts-status" property. -/
def of_device_bts_is_available (bts_status : Option String) : Int :=
  match bts_status with
  | none => 0
  | some status => if status = "enabled" ∨ status = "ok" then 1 else 0

/-- The function of_get_check_cp_status on the "check-cp-status" property. -/
def of_get_check_cp_status (check_cp_status : Option String) : Bool :=
  match check_cp_status with
  | none => false
  | some v => if v = "true" then true else false

/-- The function of_get_devfreq_sync_volt_idx on the "devfreq-sync-voltage"
property: the u32 value converted to int, or -ENOENT. -/
def of_get_devfreq_sync_volt_idx (devfreq_sync_voltage : Option Nat) : Int :=
  match devfreq_sync_voltage with
  | none => -ENOENT
  | some val =>
    let v : Nat := val % 2 ^ 32
    if v < 2 ^ 31 then (v : Int) else (v : Int) - 2 ^ 32

/-- Modelled from the spec: pm_genpd_init of the generic power-domain
framework, which is not among the sources. The specification (3,
last_known_state) has the state of a domain recorded at construction from the
initial hardware query; the argument is_off carries it. -/
def pm_genpd_init (genpd : generic_pm_domain) (is_off : Bool) : generic_pm_domain :=
  { genpd with
    status := some (if is_off then gpd_status.GPD_STATE_POWER_OFF
                    else gpd_status.GPD_STATE_ACTIVE) }

/-- The function exynos_pd_genpd_init; the "bts-status" property of the
domain's node is passed in. -/
def exynos_pd_genpd_init (bts_status : Option String) (pd : exynos_pm_domain) (state : Int)
    (trace : List Event) : exynos_pm_domain × List Event :=
  let g : generic_pm_domain :=
    { pd.genpd with
      name := pd.name,
      power_off := some genpd_callback.exynos_pd_power_off,
      power_on := some genpd_callback.exynos_pd_power_on,
      power_on_latency_ns := 1000000,
      power_off_latency_ns := 1000000 }
  let is_off : Bool := if state ≠ 0 then false else true
  if of_device_bts_is_available bts_status ≠ 0 then
    ({ pd with genpd := pm_genpd_init g is_off, bts := 1 },
      trace ++ [Event.bts_initialize pd.name true])
  else
    ({ pd with genpd := pm_genpd_init g is_off }, trace)

/-- One turn of the loop over the child nodes in exynos_pd_dt_parse
(lines 362-403), for child j of node i; a nonzero first component is the
value the function returns with. -/
def dt_parse_child (env : Env) (i : Nat) (initial_state : Int) (j : Nat) (c : sub_node)
    (s : pd_system) : Int × pd_system :=
  let ok := env.kzalloc s.trace
  let s1 := s.emit (Event.kzalloc ok)
  if ok = false then (-ENOMEM, s1)
  else
    let sub_pd : exynos_pm_domain :=
      { kzalloc_pd with
        name := c.name,
        of_node := some (node_ref.spd i j),
        pd_control := none,
        devfreq_index := of_get_devfreq_sync_volt_idx c.devfreq_sync_voltage }
    if c.pdev = false then (0, s1)
    else
      let s2 := s1.emit (Event.mutex_init sub_pd.name)
      let s3 := s2.emit (Event.of_genpd_add_provider (node_ref.spd i j))
      let r := exynos_pd_genpd_init c.bts_status sub_pd initial_state s3.trace
      let s4 := platform_set_drvdata { s3 with trace := r.2 } (node_ref.spd i j) r.1
      (0, pm_genpd_add_subdomain s4 (node_ref.pd i) (node_ref.spd i j))

/-- The loop over the child nodes of node i, from child j on. -/
def dt_parse_children (env : Env) (i : Nat) (initial_state : Int) :
    List sub_node → Nat → pd_system → Int × pd_system
  | [], _, s => (0, s)
  | c :: rest, j, s =>
    let r := dt_parse_child env i initial_state j c s
    if r.1 ≠ 0 then r else dt_parse_children env i initial_state rest (j + 1) r.2

/-- One turn of the first loop of exynos_pd_dt_parse (lines 311-404), for
node i; a nonzero first component is the value the function returns with. -/
def dt_parse_node (env : Env) (i : Nat) (np : device_node) (s : pd_system) :
    Int × pd_system :=
  if np.available = false then (0, s)
  else
    let ok := env.kzalloc s.trace
    let s1 := s.emit (Event.kzalloc ok)
    if ok = false then (-ENOMEM, s1)
    else
      match np.cal_id with
      | none => (-ENODEV, s1)
      | some cal_id =>
        let initial_state := env.cal_pd_status s1.trace cal_id
        let s2 := s1.emit (Event.cal_pd_status cal_id initial_state)
        if initial_state = -1 then (-EINVAL, s2)
        else
          let pd : exynos_pm_domain :=
            { kzalloc_pd with
              name := np.name,
              cal_pdid := cal_id,
              of_node := some (node_ref.pd i),
              pd_control := some pd_control_fn.cal_pd_control,
              check_status := some check_status_fn.exynos_pd_status,
              devfreq_index := of_get_devfreq_sync_volt_idx np.devfreq_sync_voltage,
              check_cp_status := of_get_check_cp_status np.check_cp_status,
              idle_ip_index := env.exynos_get_idle_ip_index np.name }
          let s3 := s2.emit (Event.mutex_init pd.name)
          let s4 := s3.emit (Event.of_genpd_add_provider (node_ref.pd i))
          let r := exynos_pd_genpd_init np.bts_status pd initial_state s4.trace
          let s5 := platform_set_drvdata { s4 with trace := r.2 } (node_ref.pd i) r.1
          dt_parse_children env i initial_state np.children 0 s5

/-- The first loop of exynos_pd_dt_parse, from node i on. -/
def dt_parse_pass1 (env : Env) : List device_node → Nat → pd_system → Int × pd_system
  | [], _, s => (0, s)
  | np :: rest, i, s =>
    let r := dt_parse_node env i np s
    if r.1 ≠ 0 then r else dt_parse_pass1 env rest (i + 1) r.2

/-- The call of_parse_phandle(np, "parent", i): the position of the node the
i-th phandle points to, with that node; none is NULL. -/
def of_parse_phandle (nodes : List device_node) (np : device_node) (i : Nat) :
    Option (Nat × device_node) :=
  match np.parent[i]? with
  | none => none
  | some h =>
    match nodes[h]? with
    | none => none
    | some p => some (h, p)

/-- The loop "for (i = 0; i < MAX_PARENT_POWER_DOMAIN; i++)" of the second
pass (lines 422-445) for node k, with n turns left and at index i. A
missing driver data pointer, which the source does not expect, adds no link. -/
def dt_parse_parents (nodes : List device_node) (k : Nat) (np : device_node) :
    Nat → Nat → pd_system → pd_system
  | 0, _, s => s
  | n + 1, i, s =>
    match of_parse_phandle nodes np i with
    | none => s
    | some (h, p) =>
      if p.available = false then dt_parse_parents nodes k np n (i + 1) s
      else
        match platform_get_drvdata s (node_ref.pd h), platform_get_drvdata s (node_ref.pd k) with
        | some _, some _ =>
          dt_parse_parents nodes k np n (i + 1)
            (pm_genpd_add_subdomain s (node_ref.pd h) (node_ref.pd k))
        | _, _ => dt_parse_parents nodes k np n (i + 1) s

/-- The second loop of exynos_pd_dt_parse (lines 407-446), from node k on. -/
def dt_parse_pass2 (nodes : List device_node) : List device_node → Nat → pd_system → pd_system
  | [], _, s => s
  | np :: rest, k, s =>
    if np.available = false then dt_parse_pass2 nodes rest (k + 1) s
    else dt_parse_pass2 nodes rest (k + 1)
      (dt_parse_parents nodes k np MAX_PARENT_POWER_DOMAIN 0 s)

/-- The function exynos_pd_dt_parse, run on the state s: the value it returns
and the state it leaves. -/
def exynos_pd_dt_parse_from (env : Env) (nodes : List device_node) (s : pd_system) :
    Int × pd_system :=
  let r := dt_parse_pass1 env nodes 0 s
  if r.1 ≠ 0 then r else (0, dt_parse_pass2 nodes nodes 0 r.2)

/-- The function exynos_pd_dt_parse, run once at start-up. -/
def exynos_pd_dt_parse (env : Env) (nodes : List device_node) : Int × pd_system :=
  exynos_pd_dt_parse_from env nodes pd_system.empty

/-- What a run of exynos_pd_lookup_name comes to: it returns a pointer (none
is NULL), or it reads pd->name through a NULL driver-data pointer, which the
source does not guard against. -/
inductive lookup_outcome where
  | returns (pd : Option exynos_pm_domain)
  | null_dereference
  deriving DecidableEq, Repr

/-- The loop of exynos_pd_lookup_name over the compatible nodes, from node i
on. Every compatible node has a platform device (see above), so the test of
pdev against NULL never fires; the driver data of an available node is read
and its name compared, and when the device carries no driver data the read
of pd->name goes through a NULL pointer. -/
def lookup_name_from (s : pd_system) (domain_name : String) :
    List device_node → Nat → lookup_outcome
  | [], _ => lookup_outcome.returns none
  | np :: rest, i =>
    if np.available then
      match platform_get_drvdata s (node_ref.pd i) with
      | none => lookup_outcome.null_dereference
      | some pd =>
        if pd.name = domain_name then lookup_outcome.returns (some pd)
        else lookup_name_from s domain_name rest (i + 1)
    else lookup_name_from s domain_name rest (i + 1)

/-- The function exynos_pd_lookup_name; a NULL name is none. -/
def exynos_pd_lookup_name (nodes : List device_node) (s : pd_system)
    (domain_name : Option String) : lookup_outcome :=
  match domain_name with
  | none => lookup_outcome.returns none
  | some n => lookup_name_from s n nodes 0

/-- A call through the check_status pointer of a domain (exynos-pd.h line 64;
set to exynos_pd_status at exynos-pd.c line 339 only): none when the pointer
is NULL and there is no function to call. -/
def call_check_status (env : Env) (pd : exynos_pm_domain) (trace : List Event) :
    Option (Int × Option exynos_pm_domain × List Event) :=
  match pd.check_status with
  | none => none
  | some check_status_fn.exynos_pd_status => some (exynos_pd_status env (some pd) trace)

/-- The children of a domain: the slaves of its links, in the order added. -/
def children_of (s : pd_system) (r : node_ref) : List node_ref :=
  (s.links.filter (fun l => decide (l.1 = r))).map (fun l => l.2)

/-- The name of the domain registered for a node, if any. -/
def domain_name_of (s : pd_system) (r : node_ref) : Option String :=
  (platform_get_drvdata s r).map (fun d => d.name)

/-! ## Sample domains and environments -/

/-- A physical domain as pass 1 of exynos_pd_dt_parse builds it: control
function set, BTS present, devfreq index 2, found off at construction. -/
def pd_cam0 : exynos_pm_domain :=
  { genpd := { name := "pd-cam0", power_off := some genpd_callback.exynos_pd_power_off,
               power_on := some genpd_callback.exynos_pd_power_on,
               power_on_latency_ns := 1000000, power_off_latency_ns := 1000000,
               status := some gpd_status.GPD_STATE_POWER_OFF },
    name := "pd-cam0", cal_pdid := 7, of_node := some (node_ref.pd 0),
    pd_control := some pd_control_fn.cal_pd_control,
    check_status := some check_status_fn.exynos_pd_status,
    bts := 1, devfreq_index := 2, idle_ip_index := 4, bcm := none,
    check_cp_status := false }

/-- The same physical domain, found on at construction. -/
def pd_cam0_on : exynos_pm_domain :=
  { pd_cam0 with genpd := { pd_cam0.genpd with status := some gpd_status.GPD_STATE_ACTIVE } }

/-- A logical sub-domain as pass 1 of exynos_pd_dt_parse builds it: no control
function, cal_pdid left at zero, no devfreq index. -/
def spd_cam0 : exynos_pm_domain :=
  { genpd := { name := "spd-cam0", power_off := some genpd_callback.exynos_pd_power_off,
               power_on := some genpd_callback.exynos_pd_power_on,
               power_on_latency_ns := 1000000, power_off_latency_ns := 1000000,
               status := some gpd_status.GPD_STATE_POWER_OFF },
    name := "spd-cam0", cal_pdid := 0, of_node := some (node_ref.spd 0 0),
    pd_control := none, check_status := none,
    bts := 0, devfreq_index := -2, idle_ip_index := 0, bcm := none,
    check_cp_status := false }

/-- Hardware on which every call succeeds and every domain reports off. -/
def env_ok : Env :=
  { config_exynos_bcm := true,
    cal_pd_control := fun _ _ _ => 0,
    cal_pd_status := fun _ _ => 0,
    is_cp_aud_enabled := fun _ => false,
    is_test_cp_call_set := fun _ => false,
    exynos_get_idle_ip_index := fun _ => 4,
    kzalloc := fun _ => true }

/-- Hardware on which every power-off times out (-4). -/
def env_timeout : Env :=
  { env_ok with cal_pd_control := fun _ _ power => if power = 0 then -4 else 0 }

/-- Hardware on which every power-on fails (-1). -/
def env_on_fails : Env :=
  { env_ok with cal_pd_control := fun _ _ power => if power = 1 then -1 else 0 }

/-- Physical node A: no "parent" phandle, one child node "A.sub". -/
def node_A : device_node :=
  { name := "A", available := true, cal_id := some 1, devfreq_sync_voltage := none,
    check_cp_status := none, bts_status := none, parent := [],
    children := [{ name := "A.sub", devfreq_sync_voltage := none, bts_status := none,
                   pdev := true }] }

/-- Physical node B: its "parent" phandle points to the first node. -/
def node_B : device_node :=
  { name := "B", available := true, cal_id := some 2, devfreq_sync_voltage := some 3,
    check_cp_status := some "true", bts_status := some "ok", parent := [0],
    children := [] }

/-- An available node without the "cal_id" property. -/
def node_X : device_node :=
  { name := "X", available := true, cal_id := none, devfreq_sync_voltage := none,
    check_cp_status := none, bts_status := none, parent := [], children := [] }

/-- Physical node C: its "parent" phandles point to the first and the second
node. -/
def node_C : device_node :=
  { name := "C", available := true, cal_id := some 3, devfreq_sync_voltage := none,
    check_cp_status := none, bts_status := none, parent := [0, 1], children := [] }

/-- Node A with a "parent" phandle to the second node. -/
def node_A_under_B : device_node := { node_A with parent := [1] }

/-- The device tree of the construction example: A with child "A.sub", and B
under A. -/
def dt_AB : List device_node := [node_A, node_B]

/-- A device tree with a node lacking "cal_id" after A. -/
def dt_AXB : List device_node := [node_A, node_X, node_B]

/-- A device tree in which C names both A and B as parents. -/
def dt_ABC : List device_node := [node_A, node_B, node_C]

/-- A device tree in which A and B name each other as parent. -/
def dt_cycle : List device_node := [node_A_under_B, node_B]

/-- The physical sample domain with an empty trace. -/
def s_cam0 : pd_state := { pd := pd_cam0, trace := [] }

/-- The physical sample domain, recorded on, with an empty trace. -/
def s_cam0_on : pd_state := { pd := pd_cam0_on, trace := [] }

/-- The logical sample domain with an empty trace. -/
def s_spd : pd_state := { pd := spd_cam0, trace := [] }

/-! ## Trace predicates -/

/-- A call through pd_control (the hardware power switch). -/
def Event.is_set_power : Event → Bool
  | Event.pd_control _ _ _ => true
  | _ => false

/-- Taking or releasing an access_lock. -/
def Event.is_lock_op : Event → Bool
  | Event.mutex_lock _ => true
  | Event.mutex_unlock _ => true
  | _ => false

/-- A bus-tracking (BTS) call. -/
def Event.is_bts : Event → Bool
  | Event.bts_initialize _ _ => true
  | _ => false

/-- A bus-monitor (BCM) synchronisation call. -/
def Event.is_bcm_sync : Event → Bool
  | Event.bcm_pd_sync _ _ => true
  | _ => false

/-- A hardware status query. -/
def Event.is_status_query : Event → Bool
  | Event.cal_pd_status _ _ => true
  | _ => false

/-! ## Events and results of the callbacks -/

/-- The events exynos_pd_power_off_post emits for a domain. -/
def power_off_post_events (pd : exynos_pm_domain) : List Event :=
  Event.exynos_update_ip_idle_status pd.idle_ip_index 1 ::
    (if pd.devfreq_index ≥ 0 then [Event.exynos_devfreq_sync_voltage pd.devfreq_index false]
     else [])

/-- The events exynos_pd_power_on_pre emits for a domain. -/
def power_on_pre_events (pd : exynos_pm_domain) : List Event :=
  Event.exynos_update_ip_idle_status pd.idle_ip_index 0 ::
    (if pd.devfreq_index ≥ 0 then [Event.exynos_devfreq_sync_voltage pd.devfreq_index true]
     else [])

/-- An event of the bus-monitor hooks: a status query or a BCM sync. -/
def Event.is_bcm_hook (e : Event) : Bool := e.is_status_query || e.is_bcm_sync

/-- The events of exynos_pd_power_on_post (enable true) and of
exynos_pd_power_off_pre (enable false) when run in state s. -/
def bcm_hook_events (env : Env) (s : pd_state) (enable : Bool) : List Event :=
  if env.config_exynos_bcm then
    Event.cal_pd_status s.pd.cal_pdid (env.cal_pd_status s.trace s.pd.cal_pdid) ::
      (if env.cal_pd_status s.trace s.pd.cal_pdid ≠ 0 then
        match s.pd.bcm with
        | some b => [Event.bcm_pd_sync b enable]
        | none => []
       else [])
  else []

/-- The pd_control event of exynos_pd_power_off for a given result. -/
def power_off_call (s : pd_state) (ret : Int) : Event :=
  Event.pd_control s.pd.cal_pdid 0 ret

/-- The result of the first pd_control call of exynos_pd_power_off. -/
def power_off_first (env : Env) (s : pd_state) : Int :=
  env.cal_pd_control (power_off_entry env s).trace s.pd.cal_pdid 0

/-- The result of the retried pd_control call of exynos_pd_power_off (made
only after the first one returned -4). -/
def power_off_retry (env : Env) (s : pd_state) : Int :=
  env.cal_pd_control
    ((power_off_entry env s).trace ++ [power_off_call s (power_off_first env s)])
    s.pd.cal_pdid 0

/-- The events of exynos_pd_power_off from its first pd_control call on. -/
def power_off_tail (env : Env) (s : pd_state) : List Event :=
  if power_off_first env s = 0 then
    power_off_call s 0 :: (power_off_post_events s.pd ++ [Event.mutex_unlock s.pd.name])
  else if power_off_first env s = -4 then
    if power_off_retry env s = 0 then
      power_off_call s (-4) :: power_off_call s 0 ::
        (power_off_post_events s.pd ++ [Event.mutex_unlock s.pd.name])
    else
      [power_off_call s (-4), power_off_call s (power_off_retry env s),
        Event.mutex_unlock s.pd.name]
  else
    [power_off_call s (power_off_first env s), Event.mutex_unlock s.pd.name]

/-- The value exynos_pd_power_off returns on a domain it does not skip. -/
def power_off_ret (env : Env) (s : pd_state) : Int :=
  if power_off_first env s = -4 then power_off_retry env s else power_off_first env s

/-- The result of the pd_control call of exynos_pd_power_on. -/
def power_on_first (env : Env) (s : pd_state) : Int :=
  env.cal_pd_control (power_on_entry s).trace s.pd.cal_pdid 1

/-- The state of exynos_pd_power_on right after its pd_control call. -/
def power_on_called (env : Env) (s : pd_state) : pd_state :=
  (power_on_entry s).emit (Event.pd_control s.pd.cal_pdid 1 (power_on_first env s))

/-- The events of exynos_pd_power_off before its first pd_control call. -/
def power_off_head (env : Env) (s : pd_state) : List Event :=
  Event.mutex_lock s.pd.name ::
    ((if s.pd.bts ≠ 0 then [Event.bts_initialize s.pd.name false] else []) ++
      bcm_hook_events env (power_off_locked s) false)

/-! ## Lemmas on the hooks -/

theorem emit_trace (s : pd_state) (e : Event) : (s.emit e).trace = s.trace ++ [e] := rfl

theorem emit_pd (s : pd_state) (e : Event) : (s.emit e).pd = s.pd := rfl

theorem power_on_pre_pd (s : pd_state) : (exynos_pd_power_on_pre s).pd = s.pd := by
  unfold exynos_pd_power_on_pre
  split <;> rfl

theorem power_on_pre_trace (s : pd_state) :
    (exynos_pd_power_on_pre s).trace = s.trace ++ power_on_pre_events s.pd := by
  unfold exynos_pd_power_on_pre power_on_pre_events
  split <;> simp [emit_trace, emit_pd]

theorem power_off_post_pd (s : pd_state) : (exynos_pd_power_off_post s).pd = s.pd := by
  unfold exynos_pd_power_off_post
  split <;> rfl

theorem power_off_post_trace (s : pd_state) :
    (exynos_pd_power_off_post s).trace = s.trace ++ power_off_post_events s.pd := by
  unfold exynos_pd_power_off_post power_off_post_events
  split <;> simp [emit_trace, emit_pd]

theorem power_on_post_pd (env : Env) (s : pd_state) :
    (exynos_pd_power_on_post env s).pd = s.pd := by
  unfold exynos_pd_power_on_post
  split
  · simp only []
    split
    · split <;> rfl
    · rfl
  · rfl

theorem power_off_pre_pd (env : Env) (s : pd_state) :
    (exynos_pd_power_off_pre env s).pd = s.pd := by
  unfold exynos_pd_power_off_pre
  split
  · simp only []
    split
    · split <;> rfl
    · rfl
  · rfl

theorem power_on_post_trace (env : Env) (s : pd_state) :
    (exynos_pd_power_on_post env s).trace = s.trace ++ bcm_hook_events env s true := by
  unfold exynos_pd_power_on_post bcm_hook_events
  split
  · simp only []
    split
    · split <;> simp [emit_trace, *]
    · simp [emit_trace]
  · simp

theorem power_off_pre_trace (env : Env) (s : pd_state) :
    (exynos_pd_power_off_pre env s).trace = s.trace ++ bcm_hook_events env s false := by
  unfold exynos_pd_power_off_pre bcm_hook_events
  split
  · simp only []
    split
    · split <;> simp [emit_trace, *]
    · simp [emit_trace]
  · simp

theorem bcm_hook_events_kind (env : Env) (s : pd_state) (b : Bool) :
    ∀ e ∈ bcm_hook_events env s b, e.is_bcm_hook = true := by
  unfold bcm_hook_events
  split
  · split
    · split <;> simp [Event.is_bcm_hook, Event.is_status_query, Event.is_bcm_sync]
    · simp [Event.is_bcm_hook, Event.is_status_query]
  · simp

theorem power_off_locked_pd (s : pd_state) : (power_off_locked s).pd = s.pd := by
  unfold power_off_locked
  simp only []
  split <;> rfl

theorem power_off_entry_pd (env : Env) (s : pd_state) : (power_off_entry env s).pd = s.pd := by
  unfold power_off_entry
  rw [power_off_pre_pd, power_off_locked_pd]

/-- Up to its first pd_control call exynos_pd_power_off emits the lock, the BTS
disable if BTS is present, and bus-monitor hook events. -/
theorem power_off_entry_trace (env : Env) (s : pd_state) :
    (power_off_entry env s).trace =
        s.trace ++ Event.mutex_lock s.pd.name ::
          ((if s.pd.bts ≠ 0 then [Event.bts_initialize s.pd.name false] else []) ++
            bcm_hook_events env (power_off_locked s) false) := by
  unfold power_off_entry
  rw [power_off_pre_trace]
  have h : (power_off_locked s).trace = s.trace ++ Event.mutex_lock s.pd.name ::
      (if s.pd.bts ≠ 0 then [Event.bts_initialize s.pd.name false] else []) := by
    unfold power_off_locked
    simp only []
    split <;> simp [emit_trace]
  rw [h]
  simp

/-- What exynos_pd_power_off does on a domain with a control function when the
CP-call test does not skip it. -/
theorem power_off_run (env : Env) (s : pd_state) (f : pd_control_fn)
    (hf : s.pd.pd_control = some f) (hskip : cp_call_skip env s = false) :
    (exynos_pd_power_off env s).1 = power_off_ret env s ∧
    (exynos_pd_power_off env s).2.pd = s.pd ∧
    (exynos_pd_power_off env s).2.trace =
      (power_off_entry env s).trace ++ power_off_tail env s := by
  cases f
  have hpd := power_off_entry_pd env s
  unfold exynos_pd_power_off power_off_tail power_off_ret power_off_retry power_off_call
  simp only [hf, hskip, call_pd_control, exynos_pd_prepare_forced_off, emit_trace, emit_pd,
    hpd, power_off_post_trace, power_off_post_pd]
  unfold power_off_first
  generalize env.cal_pd_control (power_off_entry env s).trace s.pd.cal_pdid 0 = r1
  by_cases h0 : r1 = 0
  · subst h0
    simp [emit_trace, emit_pd, power_off_post_trace, power_off_post_pd, hpd]
  · by_cases h4 : r1 = -4
    · subst h4
      simp only [emit_trace, emit_pd, power_off_post_trace, power_off_post_pd, hpd]
      generalize env.cal_pd_control ((power_off_entry env s).trace ++
        [Event.pd_control s.pd.cal_pdid 0 (-4)]) s.pd.cal_pdid 0 = r2
      by_cases h2 : r2 = 0
      · subst h2
        simp [emit_trace, emit_pd, power_off_post_trace, power_off_post_pd, hpd]
      · simp [h2, emit_trace, emit_pd, hpd]
    · simp [h0, h4, emit_trace, emit_pd, hpd]

theorem power_on_entry_pd (s : pd_state) : (power_on_entry s).pd = s.pd := by
  unfold power_on_entry
  rw [power_on_pre_pd, emit_pd]

theorem power_on_entry_trace (s : pd_state) :
    (power_on_entry s).trace =
      s.trace ++ Event.mutex_lock s.pd.name :: power_on_pre_events s.pd := by
  unfold power_on_entry
  rw [power_on_pre_trace, emit_pd, emit_trace]
  simp

/-- What exynos_pd_power_on does when the hardware call fails. -/
theorem power_on_run_fail (env : Env) (s : pd_state) (f : pd_control_fn)
    (hf : s.pd.pd_control = some f) (hskip : cp_call_skip env s = false)
    (hret : power_on_first env s ≠ 0) :
    (exynos_pd_power_on env s).1 = -EAGAIN ∧
    (exynos_pd_power_on env s).2.pd = s.pd ∧
    (exynos_pd_power_on env s).2.trace =
      (power_on_entry s).trace ++ Event.pd_control s.pd.cal_pdid 1 (power_on_first env s) ::
        (power_off_post_events s.pd ++ [Event.mutex_unlock s.pd.name]) := by
  cases f
  have hpd := power_on_entry_pd s
  unfold power_on_first at hret
  unfold exynos_pd_power_on power_on_first
  simp [hf, hskip, call_pd_control, emit_trace, emit_pd, hpd, power_off_post_trace,
    power_off_post_pd, hret]

/-- What exynos_pd_power_on does when the hardware call succeeds. -/
theorem power_on_run_ok (env : Env) (s : pd_state) (f : pd_control_fn)
    (hf : s.pd.pd_control = some f) (hskip : cp_call_skip env s = false)
    (hret : power_on_first env s = 0) :
    (exynos_pd_power_on env s).1 = 0 ∧
    (exynos_pd_power_on env s).2.pd = s.pd ∧
    (exynos_pd_power_on env s).2.trace =
      (power_on_entry s).trace ++ Event.pd_control s.pd.cal_pdid 1 0 ::
        (bcm_hook_events env (power_on_called env s) true ++
          ((if s.pd.bts ≠ 0 then [Event.bts_initialize s.pd.name true] else []) ++
            [Event.mutex_unlock s.pd.name])) := by
  cases f
  have hpd := power_on_entry_pd s
  unfold power_on_called
  rw [hret]
  unfold power_on_first at hret
  unfold exynos_pd_power_on
  simp only [hf, hskip, call_pd_control, hret, hpd]
  by_cases hb : s.pd.bts = 0
  · simp [hb, emit_trace, emit_pd, power_on_post_trace, power_on_post_pd, hpd]
  · simp [hb, emit_trace, emit_pd, power_on_post_trace, power_on_post_pd, hpd]

/-- On a domain without control function, or when the CP-call test holds, both
callbacks return 0 and leave the state as it is. -/
theorem transition_skipped (env : Env) (s : pd_state)
    (h : s.pd.pd_control = none ∨ cp_call_skip env s = true) :
    exynos_pd_power_on env s = (0, s) ∧ exynos_pd_power_off env s = (0, s) := by
  unfold exynos_pd_power_on exynos_pd_power_off
  rcases h with h | h
  · simp [h]
  · cases hf : s.pd.pd_control <;> simp [h]

theorem bcm_hook_not_set_power (e : Event) (h : e.is_bcm_hook = true) :
    e.is_set_power = false ∧ e.is_lock_op = false ∧ e.is_bts = false := by
  cases e <;> simp_all [Event.is_bcm_hook, Event.is_status_query, Event.is_bcm_sync,
    Event.is_set_power, Event.is_lock_op, Event.is_bts]

theorem bcm_hook_events_filter (env : Env) (s : pd_state) (b : Bool) :
    (bcm_hook_events env s b).filter Event.is_set_power = [] := by
  rw [List.filter_eq_nil_iff]
  intro e he
  simp [(bcm_hook_not_set_power e (bcm_hook_events_kind env s b e he)).1]

theorem power_off_post_events_kind (pd : exynos_pm_domain) :
    ∀ e ∈ power_off_post_events pd,
      e.is_set_power = false ∧ e.is_lock_op = false ∧ e.is_bts = false ∧
        e.is_bcm_sync = false := by
  unfold power_off_post_events
  split <;> simp [Event.is_set_power, Event.is_lock_op, Event.is_bts, Event.is_bcm_sync]

theorem power_on_pre_events_kind (pd : exynos_pm_domain) :
    ∀ e ∈ power_on_pre_events pd,
      e.is_set_power = false ∧ e.is_lock_op = false ∧ e.is_bts = false ∧
        e.is_bcm_sync = false := by
  unfold power_on_pre_events
  split <;> simp [Event.is_set_power, Event.is_lock_op, Event.is_bts, Event.is_bcm_sync]

theorem power_off_post_events_filter (pd : exynos_pm_domain) :
    (power_off_post_events pd).filter Event.is_set_power = [] := by
  rw [List.filter_eq_nil_iff]
  intro e he
  simp [(power_off_post_events_kind pd e he).1]

/-- The pd_control calls among the events of exynos_pd_power_off from its
first pd_control call on. -/
theorem power_off_tail_calls (env : Env) (s : pd_state) :
    (power_off_tail env s).filter Event.is_set_power =
      if power_off_first env s = -4 then
        [Event.pd_control s.pd.cal_pdid 0 (-4),
          Event.pd_control s.pd.cal_pdid 0 (power_off_retry env s)]
      else [Event.pd_control s.pd.cal_pdid 0 (power_off_first env s)] := by
  unfold power_off_tail power_off_call
  by_cases h0 : power_off_first env s = 0
  · simp [h0, List.filter_cons, Event.is_set_power, power_off_post_events_filter]
  · by_cases h4 : power_off_first env s = -4
    · by_cases h2 : power_off_retry env s = 0
      · simp [h4, h2, List.filter_cons, Event.is_set_power, power_off_post_events_filter]
      · simp [h4, h2, List.filter_cons, Event.is_set_power]
    · simp [h0, h4, List.filter_cons, Event.is_set_power]

theorem power_off_head_calls (env : Env) (s : pd_state) :
    (power_off_head env s).filter Event.is_set_power = [] := by
  unfold power_off_head
  by_cases hb : s.pd.bts = 0 <;>
    simp [hb, List.filter_cons, Event.is_set_power, bcm_hook_events_filter]

/-- Claim C1: on a domain with a control function that the CP-call test does
not skip, exynos_pd_power_off makes exactly two pd_control(cal_pdid, 0) calls
when the first returns the timeout code -4 (the original and one retry, whose
result is returned, so a failed retry is reported and no third call is made),
and exactly one such call for every other result of the first call, whose
result is returned. -/
theorem power_off_retries_once_on_timeout (env : Env) (s : pd_state) (f : pd_control_fn)
    (hf : s.pd.pd_control = some f) (hskip : cp_call_skip env s = false) :
    ∃ evs, (exynos_pd_power_off env s).2.trace = s.trace ++ evs ∧
      (power_off_first env s = -4 →
        evs.filter Event.is_set_power =
          [Event.pd_control s.pd.cal_pdid 0 (-4),
            Event.pd_control s.pd.cal_pdid 0 (power_off_retry env s)] ∧
        (exynos_pd_power_off env s).1 = power_off_retry env s) ∧
      (power_off_first env s ≠ -4 →
        evs.filter Event.is_set_power =
          [Event.pd_control s.pd.cal_pdid 0 (power_off_first env s)] ∧
        (exynos_pd_power_off env s).1 = power_off_first env s) := by
  obtain ⟨hret, -, htr⟩ := power_off_run env s f hf hskip
  refine ⟨power_off_head env s ++ power_off_tail env s, ?_, ?_, ?_⟩
  · rw [htr, power_off_entry_trace]
    simp [power_off_head]
  · intro h4
    rw [List.filter_append, power_off_head_calls, power_off_tail_calls, hret]
    simp [h4, power_off_ret]
  · intro h4
    rw [List.filter_append, power_off_head_calls, power_off_tail_calls, hret]
    simp [h4, power_off_ret]

/-- Claim C2: on a Logical domain (no control function), or on a gated domain
whose CP-call condition holds at the time of the call, exynos_pd_power_on and
exynos_pd_power_off both return 0 and emit no event at all, so no pd_control
call is made, whatever the environment would answer. -/
theorem skipped_transition_touches_no_hardware (env : Env) (s : pd_state)
    (h : s.pd.pd_control = none ∨
      (s.pd.check_cp_status = true ∧
        (env.is_cp_aud_enabled s.trace = true ∨ env.is_test_cp_call_set s.trace = true))) :
    (exynos_pd_power_on env s).1 = 0 ∧ (exynos_pd_power_on env s).2.trace = s.trace ∧
    (exynos_pd_power_off env s).1 = 0 ∧ (exynos_pd_power_off env s).2.trace = s.trace ∧
    (∀ e ∈ (exynos_pd_power_on env s).2.trace.drop s.trace.length, e.is_set_power = false) ∧
    (∀ e ∈ (exynos_pd_power_off env s).2.trace.drop s.trace.length, e.is_set_power = false) := by
  have hs : s.pd.pd_control = none ∨ cp_call_skip env s = true := by
    rcases h with h | ⟨h1, h2⟩
    · exact Or.inl h
    · right
      unfold cp_call_skip
      rcases h2 with h2 | h2 <;> simp [h1, h2]
  obtain ⟨h1, h2⟩ := transition_skipped env s hs
  rw [h1, h2]
  simp

/-- The callbacks never write to the domain object they are given. -/
theorem transition_keeps_pd (env : Env) (s : pd_state) :
    (exynos_pd_power_on env s).2.pd = s.pd ∧ (exynos_pd_power_off env s).2.pd = s.pd := by
  cases hf : s.pd.pd_control with
  | none =>
    obtain ⟨h1, h2⟩ := transition_skipped env s (Or.inl hf)
    rw [h1, h2]
    exact ⟨rfl, rfl⟩
  | some f =>
    cases hskip : cp_call_skip env s with
    | true =>
      obtain ⟨h1, h2⟩ := transition_skipped env s (Or.inr hskip)
      rw [h1, h2]
      exact ⟨rfl, rfl⟩
    | false =>
      refine ⟨?_, (power_off_run env s f hf hskip).2.1⟩
      by_cases hret : power_on_first env s = 0
      · exact (power_on_run_ok env s f hf hskip hret).2.1
      · exact (power_on_run_fail env s f hf hskip hret).2.1

/-- Claim C3 (as amended): exynos_pd_power_on and exynos_pd_power_off, on
every path and whatever they return, leave every field of the domain as it
was; in particular the state recorded in the domain at construction is the
same after the call as before it. -/
theorem transition_keeps_recorded_state (env : Env) (s : pd_state) :
    (exynos_pd_power_on env s).2.pd = s.pd ∧
    (exynos_pd_power_off env s).2.pd = s.pd ∧
    last_known_state (exynos_pd_power_on env s).2.pd = last_known_state s.pd ∧
    last_known_state (exynos_pd_power_off env s).2.pd = last_known_state s.pd := by
  obtain ⟨h1, h2⟩ := transition_keeps_pd env s
  rw [h1, h2]
  exact ⟨rfl, rfl, rfl, rfl⟩

/-- Claim C4: on a domain with a control function that the CP-call test does
not skip, when pd_control(cal_pdid, 1) returns an error, exynos_pd_power_on
emits exactly: the lock, the power-on pre-hook events, the failed hardware
call, the idle-ip update to idle, the voltage-sync disable if a devfreq index
is configured, and the unlock; it emits no BCM sync and no BTS call, and it
returns -EAGAIN. -/
theorem power_on_failure_runs_off_post (env : Env) (s : pd_state) (f : pd_control_fn)
    (hf : s.pd.pd_control = some f) (hskip : cp_call_skip env s = false)
    (hfail : power_on_first env s ≠ 0) :
    (exynos_pd_power_on env s).1 = -EAGAIN ∧
    ∃ evs, (exynos_pd_power_on env s).2.trace = s.trace ++ evs ∧
      evs = Event.mutex_lock s.pd.name :: power_on_pre_events s.pd ++
        [Event.pd_control s.pd.cal_pdid 1 (power_on_first env s),
          Event.exynos_update_ip_idle_status s.pd.idle_ip_index 1] ++
        (if s.pd.devfreq_index ≥ 0 then
          [Event.exynos_devfreq_sync_voltage s.pd.devfreq_index false] else []) ++
        [Event.mutex_unlock s.pd.name] ∧
      ∀ e ∈ evs, e.is_bcm_sync = false ∧ e.is_bts = false ∧ e.is_status_query = false := by
  obtain ⟨hret, -, htr⟩ := power_on_run_fail env s f hf hskip hfail
  refine ⟨hret, _, ?_, rfl, ?_⟩
  · rw [htr, power_on_entry_trace]
    simp [power_off_post_events]
  · intro e he
    simp only [List.mem_append, List.mem_cons, List.mem_singleton] at he
    rcases he with (((rfl | he) | (rfl | rfl | he)) | he) | he
    · simp [Event.is_bcm_sync, Event.is_bts, Event.is_status_query]
    · unfold power_on_pre_events at he
      split at he <;> simp at he <;> rcases he with rfl | rfl <;>
        simp [Event.is_bcm_sync, Event.is_bts, Event.is_status_query]
    · simp [Event.is_bcm_sync, Event.is_bts, Event.is_status_query]
    · simp [Event.is_bcm_sync, Event.is_bts, Event.is_status_query]
    · simp at he
    · split at he <;> simp at he
      subst he
      simp [Event.is_bcm_sync, Event.is_bts, Event.is_status_query]
    · simp at he
      subst he
      simp [Event.is_bcm_sync, Event.is_bts, Event.is_status_query]

theorem power_off_tail_has_call (env : Env) (s : pd_state) :
    ∃ r rest, power_off_tail env s = Event.pd_control s.pd.cal_pdid 0 r :: rest := by
  unfold power_off_tail power_off_call
  split
  · exact ⟨_, _, rfl⟩
  · split
    · split <;> exact ⟨_, _, rfl⟩
    · exact ⟨_, _, rfl⟩

theorem power_off_tail_shape (env : Env) (s : pd_state) :
    ∃ mid, power_off_tail env s = mid ++ [Event.mutex_unlock s.pd.name] ∧
      ∀ e ∈ mid, e.is_lock_op = false := by
  have hpost := power_off_post_events_kind s.pd
  unfold power_off_tail power_off_call
  split
  · refine ⟨Event.pd_control s.pd.cal_pdid 0 0 :: power_off_post_events s.pd, by simp, ?_⟩
    intro e he
    rcases List.mem_cons.1 he with rfl | he
    · rfl
    · exact (hpost e he).2.1
  · split
    · split
      · refine ⟨Event.pd_control s.pd.cal_pdid 0 (-4) :: Event.pd_control s.pd.cal_pdid 0 0 ::
          power_off_post_events s.pd, by simp, ?_⟩
        intro e he
        rcases List.mem_cons.1 he with rfl | he
        · rfl
        · rcases List.mem_cons.1 he with rfl | he
          · rfl
          · exact (hpost e he).2.1
      · refine ⟨[Event.pd_control s.pd.cal_pdid 0 (-4),
          Event.pd_control s.pd.cal_pdid 0 (power_off_retry env s)], by simp, ?_⟩
        simp [Event.is_lock_op]
    · refine ⟨[Event.pd_control s.pd.cal_pdid 0 (power_off_first env s)], by simp, ?_⟩
      simp [Event.is_lock_op]

/-- Claim C9: on a domain with BTS configured, a control function and no
CP-call skip: exynos_pd_power_off emits the BTS disable before any pd_control
call, and the first pd_control(cal_pdid, 0) call follows it; exynos_pd_power_on
emits the BTS enable only after pd_control(cal_pdid, 1) has returned 0, with
no pd_control call after it, and emits no BTS call at all when that call
fails. -/
theorem bts_ordered_around_hardware_call (env : Env) (s : pd_state) (f : pd_control_fn)
    (hf : s.pd.pd_control = some f) (hskip : cp_call_skip env s = false)
    (hbts : s.pd.bts ≠ 0) :
    (∃ pre mid r post, (exynos_pd_power_off env s).2.trace =
        s.trace ++ (pre ++ Event.bts_initialize s.pd.name false ::
          (mid ++ Event.pd_control s.pd.cal_pdid 0 r :: post)) ∧
        (∀ e ∈ pre, e.is_set_power = false) ∧ (∀ e ∈ mid, e.is_set_power = false)) ∧
    (power_on_first env s = 0 →
      ∃ pre mid post, (exynos_pd_power_on env s).2.trace =
        s.trace ++ (pre ++ Event.pd_control s.pd.cal_pdid 1 0 ::
          (mid ++ Event.bts_initialize s.pd.name true :: post)) ∧
        (∀ e ∈ pre, e.is_bts = false) ∧ (∀ e ∈ mid, e.is_bts = false) ∧
        (∀ e ∈ post, e.is_set_power = false ∧ e.is_bts = false)) ∧
    (power_on_first env s ≠ 0 →
      ∃ evs, (exynos_pd_power_on env s).2.trace = s.trace ++ evs ∧
        ∀ e ∈ evs, e.is_bts = false) := by
  refine ⟨?_, ?_, ?_⟩
  · obtain ⟨-, -, htr⟩ := power_off_run env s f hf hskip
    obtain ⟨r, rest, htail⟩ := power_off_tail_has_call env s
    refine ⟨[Event.mutex_lock s.pd.name], bcm_hook_events env (power_off_locked s) false,
      r, rest, ?_, ?_, ?_⟩
    · rw [htr, power_off_entry_trace, htail]
      simp [hbts]
    · simp [Event.is_set_power]
    · intro e he
      exact (bcm_hook_not_set_power e (bcm_hook_events_kind _ _ _ e he)).1
  · intro hret
    obtain ⟨-, -, htr⟩ := power_on_run_ok env s f hf hskip hret
    refine ⟨Event.mutex_lock s.pd.name :: power_on_pre_events s.pd,
      bcm_hook_events env (power_on_called env s) true, [Event.mutex_unlock s.pd.name],
      ?_, ?_, ?_, ?_⟩
    · rw [htr, power_on_entry_trace]
      simp [hbts]
    · intro e he
      rcases List.mem_cons.1 he with rfl | he
      · rfl
      · exact (power_on_pre_events_kind s.pd e he).2.2.1
    · intro e he
      exact (bcm_hook_not_set_power e (bcm_hook_events_kind _ _ _ e he)).2.2
    · simp [Event.is_set_power, Event.is_bts]
  · intro hret
    obtain ⟨-, -, htr⟩ := power_on_run_fail env s f hf hskip hret
    refine ⟨Event.mutex_lock s.pd.name :: (power_on_pre_events s.pd ++
      Event.pd_control s.pd.cal_pdid 1 (power_on_first env s) ::
        (power_off_post_events s.pd ++ [Event.mutex_unlock s.pd.name])), ?_, ?_⟩
    · rw [htr, power_on_entry_trace]
      simp
    · intro e he
      simp only [List.mem_cons, List.mem_append, List.not_mem_nil, or_false] at he
      rcases he with rfl | he | rfl | he | rfl
      · rfl
      · exact (power_on_pre_events_kind s.pd e he).2.2.1
      · rfl
      · exact (power_off_post_events_kind s.pd e he).2.2.1
      · rfl

/-- Claim C10: the events of exynos_pd_power_on and of exynos_pd_power_off are
lock-balanced. On a short-circuit (no control function, or the CP-call test
holds) nothing is emitted, so the lock is not taken. Otherwise, on every
path, the emitted events are the lock, then events none of which takes or
releases a lock and which include the pd_control call, then the unlock: every
hook and hardware call lies between the one lock and the one unlock. -/
theorem transitions_lock_balanced (env : Env) (s : pd_state) :
    ((s.pd.pd_control = none ∨ cp_call_skip env s = true) ∧
      (exynos_pd_power_on env s).2.trace = s.trace ∧
      (exynos_pd_power_off env s).2.trace = s.trace) ∨
    (¬ (s.pd.pd_control = none ∨ cp_call_skip env s = true) ∧
      (∃ mid, (exynos_pd_power_on env s).2.trace =
          s.trace ++ Event.mutex_lock s.pd.name :: (mid ++ [Event.mutex_unlock s.pd.name]) ∧
          (∀ e ∈ mid, e.is_lock_op = false) ∧ ∃ e ∈ mid, e.is_set_power = true) ∧
      (∃ mid, (exynos_pd_power_off env s).2.trace =
          s.trace ++ Event.mutex_lock s.pd.name :: (mid ++ [Event.mutex_unlock s.pd.name]) ∧
          (∀ e ∈ mid, e.is_lock_op = false) ∧ ∃ e ∈ mid, e.is_set_power = true)) := by
  by_cases hs : s.pd.pd_control = none ∨ cp_call_skip env s = true
  · left
    obtain ⟨h1, h2⟩ := transition_skipped env s hs
    rw [h1, h2]
    exact ⟨hs, rfl, rfl⟩
  · right
    refine ⟨hs, ?_, ?_⟩
    · obtain ⟨f, hf⟩ : ∃ f, s.pd.pd_control = some f := by
        cases h : s.pd.pd_control with
        | none => exact absurd (Or.inl h) hs
        | some f => exact ⟨f, rfl⟩
      have hskip : cp_call_skip env s = false := by
        cases h : cp_call_skip env s with
        | true => exact absurd (Or.inr h) hs
        | false => rfl
      by_cases hret : power_on_first env s = 0
      · obtain ⟨-, -, htr⟩ := power_on_run_ok env s f hf hskip hret
        refine ⟨power_on_pre_events s.pd ++ Event.pd_control s.pd.cal_pdid 1 0 ::
          (bcm_hook_events env (power_on_called env s) true ++
            (if s.pd.bts ≠ 0 then [Event.bts_initialize s.pd.name true] else [])), ?_, ?_, ?_⟩
        · rw [htr, power_on_entry_trace]
          simp
        · intro e he
          simp only [List.mem_append, List.mem_cons] at he
          rcases he with he | rfl | he | he
          · exact (power_on_pre_events_kind s.pd e he).2.1
          · rfl
          · exact (bcm_hook_not_set_power e (bcm_hook_events_kind _ _ _ e he)).2.1
          · split at he <;> simp at he
            subst he
            rfl
        · exact ⟨Event.pd_control s.pd.cal_pdid 1 0, by simp, rfl⟩
      · obtain ⟨-, -, htr⟩ := power_on_run_fail env s f hf hskip hret
        refine ⟨power_on_pre_events s.pd ++
          Event.pd_control s.pd.cal_pdid 1 (power_on_first env s) ::
            power_off_post_events s.pd, ?_, ?_, ?_⟩
        · rw [htr, power_on_entry_trace]
          simp
        · intro e he
          simp only [List.mem_append, List.mem_cons] at he
          rcases he with he | rfl | he
          · exact (power_on_pre_events_kind s.pd e he).2.1
          · rfl
          · exact (power_off_post_events_kind s.pd e he).2.1
        · exact ⟨Event.pd_control s.pd.cal_pdid 1 (power_on_first env s), by simp, rfl⟩
    · obtain ⟨f, hf⟩ : ∃ f, s.pd.pd_control = some f := by
        cases h : s.pd.pd_control with
        | none => exact absurd (Or.inl h) hs
        | some f => exact ⟨f, rfl⟩
      have hskip : cp_call_skip env s = false := by
        cases h : cp_call_skip env s with
        | true => exact absurd (Or.inr h) hs
        | false => rfl
      obtain ⟨-, -, htr⟩ := power_off_run env s f hf hskip
      obtain ⟨mid, hmid, hlock⟩ := power_off_tail_shape env s
      obtain ⟨r, rest, htail⟩ := power_off_tail_has_call env s
      refine ⟨(if s.pd.bts ≠ 0 then [Event.bts_initialize s.pd.name false] else []) ++
        bcm_hook_events env (power_off_locked s) false ++ mid, ?_, ?_, ?_⟩
      · rw [htr, power_off_entry_trace, hmid]
        simp
      · intro e he
        simp only [List.mem_append] at he
        rcases he with (he | he) | he
        · split at he <;> simp at he
          subst he
          rfl
        · exact (bcm_hook_not_set_power e (bcm_hook_events_kind _ _ _ e he)).2.1
        · exact hlock e he
      · refine ⟨Event.pd_control s.pd.cal_pdid 0 r, ?_, rfl⟩
        have hm : Event.pd_control s.pd.cal_pdid 0 r ∈ mid ++ [Event.mutex_unlock s.pd.name] := by
          rw [← hmid, htail]
          simp
        rcases List.mem_append.1 hm with hm | hm
        · simp [hm]
        · simp at hm

/-! ## Instances at the sample domains -/

/-- Witness for C1: hardware that always times out on power-off. -/
theorem power_off_retries_once_on_timeout_witness :
    s_cam0.pd.pd_control = some pd_control_fn.cal_pd_control ∧
    cp_call_skip env_timeout s_cam0 = false ∧
    power_off_first env_timeout s_cam0 = -4 ∧
    ∃ evs, (exynos_pd_power_off env_timeout s_cam0).2.trace = s_cam0.trace ++ evs ∧
      (power_off_first env_timeout s_cam0 = -4 →
        evs.filter Event.is_set_power =
          [Event.pd_control s_cam0.pd.cal_pdid 0 (-4),
            Event.pd_control s_cam0.pd.cal_pdid 0 (power_off_retry env_timeout s_cam0)] ∧
        (exynos_pd_power_off env_timeout s_cam0).1 = power_off_retry env_timeout s_cam0) ∧
      (power_off_first env_timeout s_cam0 ≠ -4 →
        evs.filter Event.is_set_power =
          [Event.pd_control s_cam0.pd.cal_pdid 0 (power_off_first env_timeout s_cam0)] ∧
        (exynos_pd_power_off env_timeout s_cam0).1 = power_off_first env_timeout s_cam0) :=
  ⟨rfl, rfl, rfl,
    power_off_retries_once_on_timeout env_timeout s_cam0 pd_control_fn.cal_pd_control rfl rfl⟩

/-- Witness for C2: the logical sample domain. -/
theorem skipped_transition_touches_no_hardware_witness :
    s_spd.pd.pd_control = none ∧
    (exynos_pd_power_on env_timeout s_spd).1 = 0 ∧
    (exynos_pd_power_on env_timeout s_spd).2.trace = s_spd.trace ∧
    (exynos_pd_power_off env_timeout s_spd).1 = 0 ∧
    (exynos_pd_power_off env_timeout s_spd).2.trace = s_spd.trace ∧
    (∀ e ∈ (exynos_pd_power_on env_timeout s_spd).2.trace.drop s_spd.trace.length,
      e.is_set_power = false) ∧
    (∀ e ∈ (exynos_pd_power_off env_timeout s_spd).2.trace.drop s_spd.trace.length,
      e.is_set_power = false) :=
  ⟨rfl, skipped_transition_touches_no_hardware env_timeout s_spd (Or.inl rfl)⟩

/-- Counterexample to C3 as stated: a successful exynos_pd_power_on on a
domain recorded off leaves it recorded off, and a successful
exynos_pd_power_off on a domain recorded on leaves it recorded on. Moreover
both callbacks succeed on the logical sample domain and leave it as it is, so
no reading of the domain's fields is "on" after the one and "off" after the
other. -/
theorem recorded_state_not_updated :
    ¬ ((exynos_pd_power_on env_ok s_cam0).1 = 0 →
        last_known_state (exynos_pd_power_on env_ok s_cam0).2.pd =
          some gpd_status.GPD_STATE_ACTIVE) ∧
    ¬ ((exynos_pd_power_off env_ok s_cam0_on).1 = 0 →
        last_known_state (exynos_pd_power_off env_ok s_cam0_on).2.pd =
          some gpd_status.GPD_STATE_POWER_OFF) ∧
    (exynos_pd_power_on env_ok s_spd).1 = 0 ∧ (exynos_pd_power_off env_ok s_spd).1 = 0 ∧
    ¬ ∃ f : exynos_pm_domain → gpd_status,
        f (exynos_pd_power_on env_ok s_spd).2.pd = gpd_status.GPD_STATE_ACTIVE ∧
        f (exynos_pd_power_off env_ok s_spd).2.pd = gpd_status.GPD_STATE_POWER_OFF := by
  refine ⟨?_, ?_, rfl, rfl, ?_⟩
  · intro h
    have h1 := h rfl
    rw [(transition_keeps_pd env_ok s_cam0).1] at h1
    exact absurd h1 (by decide)
  · intro h
    have h1 := h rfl
    rw [(transition_keeps_pd env_ok s_cam0_on).2] at h1
    exact absurd h1 (by decide)
  · rintro ⟨f, h1, h2⟩
    rw [(transition_keeps_pd env_ok s_spd).1] at h1
    rw [(transition_keeps_pd env_ok s_spd).2, h1] at h2
    cases h2

/-- Witness for C4: hardware on which power-on fails. -/
theorem power_on_failure_runs_off_post_witness :
    power_on_first env_on_fails s_cam0 ≠ 0 ∧
    (exynos_pd_power_on env_on_fails s_cam0).1 = -EAGAIN ∧
    (exynos_pd_power_on env_on_fails s_cam0).2.trace =
      [Event.mutex_lock "pd-cam0", Event.exynos_update_ip_idle_status 4 0,
        Event.exynos_devfreq_sync_voltage 2 true, Event.pd_control 7 1 (-1),
        Event.exynos_update_ip_idle_status 4 1, Event.exynos_devfreq_sync_voltage 2 false,
        Event.mutex_unlock "pd-cam0"] := by
  have hfail : power_on_first env_on_fails s_cam0 ≠ 0 := by decide
  obtain ⟨h1, evs, h2, h3, -⟩ := power_on_failure_runs_off_post env_on_fails s_cam0
    pd_control_fn.cal_pd_control rfl rfl hfail
  refine ⟨hfail, h1, ?_⟩
  rw [h2, h3]
  rfl

/-- Witness for C9: the physical sample domain, which has BTS. -/
theorem bts_ordered_around_hardware_call_witness :
    s_cam0.pd.bts ≠ 0 ∧ power_on_first env_ok s_cam0 = 0 ∧
    (exynos_pd_power_off env_ok s_cam0).2.trace =
      [Event.mutex_lock "pd-cam0", Event.bts_initialize "pd-cam0" false,
        Event.cal_pd_status 7 0, Event.pd_control 7 0 0,
        Event.exynos_update_ip_idle_status 4 1, Event.exynos_devfreq_sync_voltage 2 false,
        Event.mutex_unlock "pd-cam0"] ∧
    ∃ pre mid post, (exynos_pd_power_on env_ok s_cam0).2.trace =
        s_cam0.trace ++ (pre ++ Event.pd_control s_cam0.pd.cal_pdid 1 0 ::
          (mid ++ Event.bts_initialize s_cam0.pd.name true :: post)) ∧
        (∀ e ∈ pre, e.is_bts = false) ∧ (∀ e ∈ mid, e.is_bts = false) ∧
        (∀ e ∈ post, e.is_set_power = false ∧ e.is_bts = false) :=
  ⟨by decide, rfl, rfl,
    (bts_ordered_around_hardware_call env_ok s_cam0 pd_control_fn.cal_pd_control rfl rfl
      (by decide)).2.1 rfl⟩

/-! ## Lemmas on construction -/

theorem genpd_init_fields (b : Option String) (pd : exynos_pm_domain) (st : Int)
    (t : List Event) :
    (exynos_pd_genpd_init b pd st t).1.name = pd.name ∧
    (exynos_pd_genpd_init b pd st t).1.pd_control = pd.pd_control := by
  unfold exynos_pd_genpd_init
  simp only []
  split <;> exact ⟨rfl, rfl⟩

/-- What one turn of the child loop does to the driver data and the links. -/
theorem dt_parse_child_cases (env : Env) (i : Nat) (st : Int) (j : Nat) (c : sub_node)
    (s : pd_system) :
    ((dt_parse_child env i st j c s).1 ≠ 0 ∧
      (dt_parse_child env i st j c s).2.drvdata = s.drvdata ∧
      (dt_parse_child env i st j c s).2.links = s.links) ∨
    ((dt_parse_child env i st j c s).1 = 0 ∧ c.pdev = false ∧
      (dt_parse_child env i st j c s).2.drvdata = s.drvdata ∧
      (dt_parse_child env i st j c s).2.links = s.links) ∨
    ((dt_parse_child env i st j c s).1 = 0 ∧ c.pdev = true ∧
      ∃ d, d.pd_control = none ∧ d.name = c.name ∧
        (dt_parse_child env i st j c s).2.drvdata = (node_ref.spd i j, d) :: s.drvdata ∧
        (dt_parse_child env i st j c s).2.links =
          s.links ++ [(node_ref.pd i, node_ref.spd i j)]) := by
  unfold dt_parse_child
  simp only []
  by_cases hk : env.kzalloc s.trace = false
  · left
    simp [hk, pd_system.emit, ENOMEM]
  · right
    by_cases hp : c.pdev = false
    · left
      simp [hk, hp, pd_system.emit]
    · right
      simp only [hk, hp, if_false]
      refine ⟨rfl, by cases hc : c.pdev <;> simp_all, _, ?_, ?_, rfl, rfl⟩
      · rw [(genpd_init_fields _ _ _ _).2]
      · rw [(genpd_init_fields _ _ _ _).1]

theorem get_drvdata_cons_spd (s : pd_system) (i j m : Nat) (d : exynos_pm_domain)
    (t : pd_system) (h : t.drvdata = (node_ref.spd i j, d) :: s.drvdata) :
    platform_get_drvdata t (node_ref.pd m) = platform_get_drvdata s (node_ref.pd m) := by
  unfold platform_get_drvdata
  rw [h]
  have hne : (node_ref.pd m == node_ref.spd i j) = false := by
    rw [beq_eq_false_iff_ne]
    exact fun hc => node_ref.noConfusion hc
  simp [List.lookup, hne]

theorem get_drvdata_congr (s t : pd_system) (h : t.drvdata = s.drvdata) (r : node_ref) :
    platform_get_drvdata t r = platform_get_drvdata s r := by
  unfold platform_get_drvdata
  rw [h]

/-- One turn of the child loop leaves the driver data of the power-domain
nodes alone. -/
theorem dt_parse_child_get_pd (env : Env) (i : Nat) (st : Int) (j : Nat) (c : sub_node)
    (s : pd_system) (m : Nat) :
    platform_get_drvdata (dt_parse_child env i st j c s).2 (node_ref.pd m) =
      platform_get_drvdata s (node_ref.pd m) := by
  rcases dt_parse_child_cases env i st j c s with ⟨-, h, -⟩ | ⟨-, -, h, -⟩ | ⟨-, -, d, -, -, h, -⟩
  · exact get_drvdata_congr _ _ h _
  · exact get_drvdata_congr _ _ h _
  · exact get_drvdata_cons_spd s i j m d _ h

theorem dt_parse_children_get_pd (env : Env) (i : Nat) (st : Int) (cs : List sub_node) :
    ∀ (j : Nat) (s : pd_system) (m : Nat),
      platform_get_drvdata (dt_parse_children env i st cs j s).2 (node_ref.pd m) =
        platform_get_drvdata s (node_ref.pd m) := by
  induction cs with
  | nil => intro j s m; rfl
  | cons c rest ih =>
    intro j s m
    unfold dt_parse_children
    simp only []
    split
    · exact dt_parse_child_get_pd env i st j c s m
    · rw [ih, dt_parse_child_get_pd]

/-- The links the child loop of node i adds are links from node i to its own
children. -/
theorem dt_parse_children_links (env : Env) (i : Nat) (st : Int) (cs : List sub_node) :
    ∀ (j : Nat) (s : pd_system),
      ∃ l1, (dt_parse_children env i st cs j s).2.links = s.links ++ l1 ∧
        ∀ x ∈ l1, ∃ j1, x = (node_ref.pd i, node_ref.spd i j1) := by
  induction cs with
  | nil => intro j s; exact ⟨[], by simp [dt_parse_children], by simp⟩
  | cons c rest ih =>
    intro j s
    have hc : ∃ l0, (dt_parse_child env i st j c s).2.links = s.links ++ l0 ∧
        ∀ x ∈ l0, ∃ j1, x = (node_ref.pd i, node_ref.spd i j1) := by
      rcases dt_parse_child_cases env i st j c s with
        ⟨-, -, h⟩ | ⟨-, -, -, h⟩ | ⟨-, -, d, -, -, -, h⟩
      · exact ⟨[], by simp [h], by simp⟩
      · exact ⟨[], by simp [h], by simp⟩
      · exact ⟨[(node_ref.pd i, node_ref.spd i j)], h, by simp⟩
    obtain ⟨l0, h0, hl0⟩ := hc
    unfold dt_parse_children
    simp only []
    split
    · exact ⟨l0, h0, hl0⟩
    · obtain ⟨l1, h1, hl1⟩ := ih (j + 1) (dt_parse_child env i st j c s).2
      refine ⟨l0 ++ l1, by rw [h1, h0, List.append_assoc], ?_⟩
      intro x hx
      rcases List.mem_append.1 hx with hx | hx
      · exact hl0 x hx
      · exact hl1 x hx

/-- When the child loop of node i runs through, every child with a platform
device is linked under node i. -/
theorem dt_parse_children_linked (env : Env) (i : Nat) (st : Int) (cs : List sub_node) :
    ∀ (j : Nat) (s : pd_system), (dt_parse_children env i st cs j s).1 = 0 →
      ∀ (m : Nat) (c : sub_node), cs[m]? = some c → c.pdev = true →
        (node_ref.pd i, node_ref.spd i (j + m)) ∈ (dt_parse_children env i st cs j s).2.links := by
  induction cs with
  | nil => intro j s _ m c hm; simp at hm
  | cons c0 rest ih =>
    intro j s hret m c hm hp
    unfold dt_parse_children at hret ⊢
    simp only [] at hret ⊢
    by_cases h0 : (dt_parse_child env i st j c0 s).1 ≠ 0
    · rw [if_pos h0] at hret
      exact absurd hret h0
    · rw [if_neg h0] at hret ⊢
      obtain ⟨l1, h1, -⟩ := dt_parse_children_links env i st rest (j + 1)
        (dt_parse_child env i st j c0 s).2
      cases m with
      | zero =>
        simp at hm
        subst hm
        rw [h1]
        rcases dt_parse_child_cases env i st j c0 s with
          ⟨h, -⟩ | ⟨-, h, -⟩ | ⟨-, -, d, -, -, -, h⟩
        · exact absurd h h0
        · rw [hp] at h
          exact absurd h (by decide)
        · rw [h]
          simp
      | succ m =>
        have := ih (j + 1) (dt_parse_child env i st j c0 s).2 hret m c (by simpa using hm) hp
        rw [show j + (m + 1) = j + 1 + m by omega]
        exact this

/-- What one turn of the first loop does: it passes over an unavailable node,
or returns early with the driver data and links as they were, or registers the
domain of the node and runs the child loop. -/
theorem dt_parse_node_cases (env : Env) (i : Nat) (np : device_node) (s : pd_system) :
    (np.available = false ∧ dt_parse_node env i np s = (0, s)) ∨
    (np.available = true ∧ (dt_parse_node env i np s).1 ≠ 0 ∧
      (dt_parse_node env i np s).2.drvdata = s.drvdata ∧
      (dt_parse_node env i np s).2.links = s.links) ∨
    (np.available = true ∧ ∃ st s5 d,
      dt_parse_node env i np s = dt_parse_children env i st np.children 0 s5 ∧
      s5.drvdata = (node_ref.pd i, d) :: s.drvdata ∧ s5.links = s.links ∧
      d.name = np.name ∧ d.pd_control = some pd_control_fn.cal_pd_control) := by
  by_cases ha : np.available = false
  · left
    unfold dt_parse_node
    simp [ha]
  · right
    have ha1 : np.available = true := by cases hc : np.available <;> simp_all
    by_cases hk : env.kzalloc s.trace = false
    · left
      unfold dt_parse_node
      simp [hk, pd_system.emit, ENOMEM, ha1]
    · have hk1 : env.kzalloc s.trace = true := by cases hc : env.kzalloc s.trace <;> simp_all
      cases hid : np.cal_id with
      | none =>
        left
        unfold dt_parse_node
        simp [pd_system.emit, ENODEV, ha1, hk1, hid]
      | some cal_id =>
        by_cases hst : env.cal_pd_status (s.trace ++ [Event.kzalloc true]) cal_id = -1
        · left
          unfold dt_parse_node
          simp [pd_system.emit, EINVAL, ha1, hk1, hid, hst]
        · right
          refine ⟨ha1, ?_⟩
          unfold dt_parse_node
          simp only [ha1, hk1, hid, hst, if_false, Bool.true_eq_false, pd_system.emit]
          refine ⟨_, _, _, rfl, rfl, rfl, ?_, ?_⟩
          · rw [(genpd_init_fields _ _ _ _).1]
          · rw [(genpd_init_fields _ _ _ _).2]

/-- A physical descriptor without its "cal_id" property makes the turn return
-ENODEV right after the allocation. -/
theorem dt_parse_node_missing_cal_id (env : Env) (i : Nat) (np : device_node)
    (s : pd_system) (ha : np.available = true) (hk : env.kzalloc s.trace = true)
    (hid : np.cal_id = none) :
    dt_parse_node env i np s = (-ENODEV, s.emit (Event.kzalloc true)) := by
  unfold dt_parse_node
  simp [ha, hk, hid]

theorem get_drvdata_cons_pd (s t : pd_system) (i m : Nat) (d : exynos_pm_domain)
    (h : t.drvdata = (node_ref.pd i, d) :: s.drvdata) :
    platform_get_drvdata t (node_ref.pd m) =
      if m = i then some d else platform_get_drvdata s (node_ref.pd m) := by
  unfold platform_get_drvdata
  rw [h]
  by_cases hm : m = i
  · subst hm
    simp [List.lookup]
  · have hne : (node_ref.pd m == node_ref.pd i) = false := by
      rw [beq_eq_false_iff_ne]
      intro hc
      exact hm (node_ref.pd.inj hc)
    simp [List.lookup, hne, hm]

/-- After one turn of the first loop the driver data of a power-domain node m
is what it was, or, for the node of this turn, the freshly built physical
domain named after the node. -/
theorem dt_parse_node_get_pd (env : Env) (i : Nat) (np : device_node) (s : pd_system)
    (m : Nat) :
    platform_get_drvdata (dt_parse_node env i np s).2 (node_ref.pd m) =
        platform_get_drvdata s (node_ref.pd m) ∨
    (m = i ∧ np.available = true ∧ ∃ d,
      platform_get_drvdata (dt_parse_node env i np s).2 (node_ref.pd m) = some d ∧
      d.name = np.name ∧ d.pd_control = some pd_control_fn.cal_pd_control) := by
  rcases dt_parse_node_cases env i np s with
    ⟨-, h⟩ | ⟨-, -, h, -⟩ | ⟨ha, st, s5, d, h, h5, -, hn, hc⟩
  · left
    rw [h]
  · left
    exact get_drvdata_congr _ _ h _
  · rw [h, dt_parse_children_get_pd, get_drvdata_cons_pd s s5 i m d h5]
    by_cases hm : m = i
    · right
      exact ⟨hm, ha, d, by simp [hm], hn, hc⟩
    · left
      simp [hm]

theorem dt_parse_node_get_pd_other (env : Env) (i : Nat) (np : device_node) (s : pd_system)
    (m : Nat) (hm : m ≠ i) :
    platform_get_drvdata (dt_parse_node env i np s).2 (node_ref.pd m) =
        platform_get_drvdata s (node_ref.pd m) := by
  rcases dt_parse_node_get_pd env i np s m with h | ⟨h, -⟩
  · exact h
  · exact absurd h hm

/-- A turn of the first loop that does not return early registers the domain
of an available node. -/
theorem dt_parse_node_registered (env : Env) (i : Nat) (np : device_node) (s : pd_system)
    (hret : (dt_parse_node env i np s).1 = 0) (ha : np.available = true) :
    ∃ d, platform_get_drvdata (dt_parse_node env i np s).2 (node_ref.pd i) = some d ∧
      d.name = np.name ∧ d.pd_control = some pd_control_fn.cal_pd_control := by
  rcases dt_parse_node_cases env i np s with
    ⟨h, -⟩ | ⟨-, h, -⟩ | ⟨-, st, s5, d, h, h5, -, hn, hc⟩
  · rw [ha] at h
    exact absurd h (by decide)
  · exact absurd hret h
  · refine ⟨d, ?_, hn, hc⟩
    rw [h, dt_parse_children_get_pd, get_drvdata_cons_pd s s5 i i d h5]
    simp

/-- The links one turn of the first loop adds are links from the node to its
own children. -/
theorem dt_parse_node_links (env : Env) (i : Nat) (np : device_node) (s : pd_system) :
    ∃ l1, (dt_parse_node env i np s).2.links = s.links ++ l1 ∧
      ∀ x ∈ l1, ∃ j1, x = (node_ref.pd i, node_ref.spd i j1) := by
  rcases dt_parse_node_cases env i np s with
    ⟨-, h⟩ | ⟨-, -, -, h⟩ | ⟨-, st, s5, d, h, -, h5, -, -⟩
  · exact ⟨[], by simp [h], by simp⟩
  · exact ⟨[], by simp [h], by simp⟩
  · obtain ⟨l1, h1, hl1⟩ := dt_parse_children_links env i st np.children 0 s5
    exact ⟨l1, by rw [h, h1, h5], hl1⟩

/-- A turn of the first loop that does not return early links every child
with a platform device under the node. -/
theorem dt_parse_node_linked (env : Env) (i : Nat) (np : device_node) (s : pd_system)
    (hret : (dt_parse_node env i np s).1 = 0) (ha : np.available = true)
    (j : Nat) (c : sub_node) (hj : np.children[j]? = some c) (hp : c.pdev = true) :
    (node_ref.pd i, node_ref.spd i j) ∈ (dt_parse_node env i np s).2.links := by
  rcases dt_parse_node_cases env i np s with
    ⟨h, -⟩ | ⟨-, h, -⟩ | ⟨-, st, s5, d, h, -, -, -, -⟩
  · rw [ha] at h
    exact absurd h (by decide)
  · exact absurd hret h
  · rw [h] at hret ⊢
    have := dt_parse_children_linked env i st np.children 0 s5 hret j c hj hp
    simpa using this

/-! ### The first loop -/

theorem dt_parse_pass1_get_pd_lt (env : Env) (rest : List device_node) :
    ∀ (i : Nat) (s : pd_system) (m : Nat), m < i →
      platform_get_drvdata (dt_parse_pass1 env rest i s).2 (node_ref.pd m) =
        platform_get_drvdata s (node_ref.pd m) := by
  induction rest with
  | nil => intro i s m _; rfl
  | cons np rest ih =>
    intro i s m hm
    unfold dt_parse_pass1
    simp only []
    split
    · exact dt_parse_node_get_pd_other env i np s m (by omega)
    · rw [ih (i + 1) _ m (by omega)]
      exact dt_parse_node_get_pd_other env i np s m (by omega)

/-- When the first loop runs through, every available node has its physical
domain registered under its own name. -/
theorem dt_parse_pass1_registered (env : Env) (rest : List device_node) :
    ∀ (i : Nat) (s : pd_system), (dt_parse_pass1 env rest i s).1 = 0 →
      ∀ (m : Nat) (np : device_node), rest[m]? = some np → np.available = true →
        ∃ d, platform_get_drvdata (dt_parse_pass1 env rest i s).2 (node_ref.pd (i + m)) = some d ∧
          d.name = np.name ∧ d.pd_control = some pd_control_fn.cal_pd_control := by
  induction rest with
  | nil => intro i s _ m np hm; simp at hm
  | cons n0 rest ih =>
    intro i s hret m np hm ha
    unfold dt_parse_pass1 at hret ⊢
    simp only [] at hret ⊢
    by_cases h0 : (dt_parse_node env i n0 s).1 ≠ 0
    · rw [if_pos h0] at hret
      exact absurd hret h0
    · rw [if_neg h0] at hret ⊢
      cases m with
      | zero =>
        simp at hm
        subst hm
        rw [dt_parse_pass1_get_pd_lt env rest (i + 1) _ (i + 0) (by omega)]
        exact dt_parse_node_registered env i n0 s (by simpa using h0) ha
      | succ m =>
        have := ih (i + 1) (dt_parse_node env i n0 s).2 hret m np (by simpa using hm) ha
        rw [show i + (m + 1) = i + 1 + m by omega]
        exact this

/-- Everything registered for a power-domain node after the first loop was
registered before, or is the physical domain of an available node of the loop,
named after it. -/
theorem dt_parse_pass1_get_pd (env : Env) (rest : List device_node) :
    ∀ (i : Nat) (s : pd_system) (m : Nat) (d : exynos_pm_domain),
      platform_get_drvdata (dt_parse_pass1 env rest i s).2 (node_ref.pd m) = some d →
        platform_get_drvdata s (node_ref.pd m) = some d ∨
        (i ≤ m ∧ ∃ np, rest[m - i]? = some np ∧ np.available = true ∧
          d.name = np.name ∧ d.pd_control = some pd_control_fn.cal_pd_control) := by
  induction rest with
  | nil => intro i s m d h; exact Or.inl h
  | cons n0 rest ih =>
    intro i s m d h
    have hnode : ∀ d, platform_get_drvdata (dt_parse_node env i n0 s).2 (node_ref.pd m) = some d →
        platform_get_drvdata s (node_ref.pd m) = some d ∨
        (i ≤ m ∧ ∃ np, (n0 :: rest)[m - i]? = some np ∧ np.available = true ∧
          d.name = np.name ∧ d.pd_control = some pd_control_fn.cal_pd_control) := by
      intro d hd
      rcases dt_parse_node_get_pd env i n0 s m with h1 | ⟨hm, ha, d1, h1, hn, hc⟩
      · left
        rw [← h1]
        exact hd
      · right
        rw [h1] at hd
        cases hd
        subst hm
        exact ⟨le_refl _, n0, by simp, ha, hn, hc⟩
    unfold dt_parse_pass1 at h
    simp only [] at h
    split at h
    · exact hnode d h
    · rcases ih (i + 1) _ m d h with h1 | ⟨hle, np, hnp, ha, hn, hc⟩
      · exact hnode d h1
      · right
        refine ⟨by omega, np, ?_, ha, hn, hc⟩
        rw [show m - i = (m - (i + 1)) + 1 by omega]
        simpa using hnp

/-- The links the first loop adds are links from a power-domain node to one
of its own child nodes. -/
theorem dt_parse_pass1_links (env : Env) (rest : List device_node) :
    ∀ (i : Nat) (s : pd_system),
      ∃ l1, (dt_parse_pass1 env rest i s).2.links = s.links ++ l1 ∧
        ∀ x ∈ l1, ∃ i1 j1, x = (node_ref.pd i1, node_ref.spd i1 j1) := by
  induction rest with
  | nil => intro i s; exact ⟨[], by simp [dt_parse_pass1], by simp⟩
  | cons n0 rest ih =>
    intro i s
    obtain ⟨l0, h0, hl0⟩ := dt_parse_node_links env i n0 s
    unfold dt_parse_pass1
    simp only []
    split
    · exact ⟨l0, h0, fun x hx => ⟨i, hl0 x hx⟩⟩
    · obtain ⟨l1, h1, hl1⟩ := ih (i + 1) (dt_parse_node env i n0 s).2
      refine ⟨l0 ++ l1, by rw [h1, h0, List.append_assoc], ?_⟩
      intro x hx
      rcases List.mem_append.1 hx with hx | hx
      · exact ⟨i, hl0 x hx⟩
      · exact hl1 x hx

/-- When the first loop runs through, every child node with a platform device
is linked under its available parent node. -/
theorem dt_parse_pass1_linked (env : Env) (rest : List device_node) :
    ∀ (i : Nat) (s : pd_system), (dt_parse_pass1 env rest i s).1 = 0 →
      ∀ (m : Nat) (np : device_node), rest[m]? = some np → np.available = true →
        ∀ (j : Nat) (c : sub_node), np.children[j]? = some c → c.pdev = true →
          (node_ref.pd (i + m), node_ref.spd (i + m) j) ∈
            (dt_parse_pass1 env rest i s).2.links := by
  induction rest with
  | nil => intro i s _ m np hm; simp at hm
  | cons n0 rest ih =>
    intro i s hret m np hm ha j c hj hp
    unfold dt_parse_pass1 at hret ⊢
    simp only [] at hret ⊢
    by_cases h0 : (dt_parse_node env i n0 s).1 ≠ 0
    · rw [if_pos h0] at hret
      exact absurd hret h0
    · rw [if_neg h0] at hret ⊢
      cases m with
      | zero =>
        simp at hm
        subst hm
        obtain ⟨l1, h1, -⟩ := dt_parse_pass1_links env rest (i + 1) (dt_parse_node env i n0 s).2
        rw [h1]
        exact List.mem_append_left _
          (dt_parse_node_linked env i n0 s (by simpa using h0) ha j c hj hp)
      | succ m =>
        have := ih (i + 1) (dt_parse_node env i n0 s).2 hret m np (by simpa using hm) ha j c hj hp
        rw [show i + (m + 1) = i + 1 + m by omega]
        exact this

/-- The first loop over a list that continues past a prefix it ran through. -/
theorem dt_parse_pass1_append (env : Env) (pre post : List device_node) :
    ∀ (i : Nat) (s : pd_system), (dt_parse_pass1 env pre i s).1 = 0 →
      dt_parse_pass1 env (pre ++ post) i s =
        dt_parse_pass1 env post (i + pre.length) (dt_parse_pass1 env pre i s).2 := by
  induction pre with
  | nil => intro i s _; simp [dt_parse_pass1]
  | cons n0 rest ih =>
    intro i s hret
    unfold dt_parse_pass1 at hret
    simp only [] at hret
    by_cases h0 : (dt_parse_node env i n0 s).1 ≠ 0
    · rw [if_pos h0] at hret
      exact absurd hret h0
    · rw [if_neg h0] at hret
      have hcons : ∀ l, dt_parse_pass1 env (n0 :: l) i s =
          dt_parse_pass1 env l (i + 1) (dt_parse_node env i n0 s).2 := by
        intro l
        conv_lhs => unfold dt_parse_pass1
        simp only [if_neg h0]
      rw [List.cons_append, hcons, hcons, ih (i + 1) _ hret]
      simp [Nat.add_assoc, Nat.add_comm 1]

/-! ### The second loop -/

theorem bool_true_of_ne_false (b : Bool) (h : ¬ b = false) : b = true := by
  cases b
  · exact absurd rfl h
  · rfl

theorem add_subdomain_drvdata (s : pd_system) (a b : node_ref) :
    (pm_genpd_add_subdomain s a b).drvdata = s.drvdata := rfl

theorem dt_parse_parents_drvdata (nodes : List device_node) (k : Nat) (np : device_node)
    (n : Nat) :
    ∀ (i : Nat) (s : pd_system), (dt_parse_parents nodes k np n i s).drvdata = s.drvdata := by
  induction n with
  | zero => intro i s; rfl
  | succ n ih =>
    intro i s
    unfold dt_parse_parents
    split
    · rfl
    · split
      · exact ih _ _
      · split
        · rw [ih, add_subdomain_drvdata]
        · exact ih _ _

/-- The links the parent loop of node k adds are links to node k from
available nodes that its "parent" phandles within the loop range point to. -/
theorem dt_parse_parents_links (nodes : List device_node) (k : Nat) (np : device_node)
    (n : Nat) :
    ∀ (i : Nat) (s : pd_system),
      ∃ l2, (dt_parse_parents nodes k np n i s).links = s.links ++ l2 ∧
        ∀ x ∈ l2, ∃ h t p, x = (node_ref.pd h, node_ref.pd k) ∧ i ≤ t ∧ t < i + n ∧
          np.parent[t]? = some h ∧ nodes[h]? = some p ∧ p.available = true := by
  induction n with
  | zero => intro i s; exact ⟨[], by simp [dt_parse_parents], by simp⟩
  | succ n ih =>
    intro i s
    have hweak : ∀ (s1 : pd_system) (l0 : List (node_ref × node_ref)),
        s1.links = s.links ++ l0 →
        (∀ x ∈ l0, ∃ h t p, x = (node_ref.pd h, node_ref.pd k) ∧ i ≤ t ∧ t < i + (n + 1) ∧
          np.parent[t]? = some h ∧ nodes[h]? = some p ∧ p.available = true) →
        ∃ l2, (dt_parse_parents nodes k np n (i + 1) s1).links = s.links ++ l2 ∧
          ∀ x ∈ l2, ∃ h t p, x = (node_ref.pd h, node_ref.pd k) ∧ i ≤ t ∧ t < i + (n + 1) ∧
            np.parent[t]? = some h ∧ nodes[h]? = some p ∧ p.available = true := by
      intro s1 l0 h0 hl0
      obtain ⟨l1, h1, hl1⟩ := ih (i + 1) s1
      refine ⟨l0 ++ l1, by rw [h1, h0, List.append_assoc], ?_⟩
      intro x hx
      rcases List.mem_append.1 hx with hx | hx
      · exact hl0 x hx
      · obtain ⟨h, t, p, e1, e2, e3, e4⟩ := hl1 x hx
        exact ⟨h, t, p, e1, by omega, by omega, e4⟩
    unfold dt_parse_parents
    split
    · exact ⟨[], by simp, by simp⟩
    · rename_i h p hph
      have hres : np.parent[i]? = some h ∧ nodes[h]? = some p := by
        unfold of_parse_phandle at hph
        split at hph
        · cases hph
        · rename_i h1 hh1
          split at hph
          · cases hph
          · rename_i p1 hp1
            simp only [Option.some.injEq, Prod.mk.injEq] at hph
            obtain ⟨e1, e2⟩ := hph
            subst e1
            subst e2
            exact ⟨hh1, hp1⟩
      split
      · exact hweak s [] (by simp) (by simp)
      · rename_i hav
        have hav1 : p.available = true := bool_true_of_ne_false _ hav
        split
        · refine hweak _ [(node_ref.pd h, node_ref.pd k)] rfl ?_
          intro x hx
          simp only [List.mem_singleton] at hx
          exact ⟨h, i, p, hx, le_refl _, by omega, hres.1, hres.2, hav1⟩
        · exact hweak s [] (by simp) (by simp)

/-- The parent loop links node k under the target of its t-th "parent"
phandle when t is within the loop range, all earlier phandles resolve, the
target is available and both domains are registered. -/
theorem dt_parse_parents_linked (nodes : List device_node) (k : Nat) (np : device_node)
    (n : Nat) :
    ∀ (i : Nat) (s : pd_system) (t h : Nat) (p : device_node),
      i ≤ t → t < i + n →
      (∀ u, i ≤ u → u < t → (of_parse_phandle nodes np u).isSome = true) →
      np.parent[t]? = some h → nodes[h]? = some p → p.available = true →
      (platform_get_drvdata s (node_ref.pd h)).isSome = true →
      (platform_get_drvdata s (node_ref.pd k)).isSome = true →
      (node_ref.pd h, node_ref.pd k) ∈ (dt_parse_parents nodes k np n i s).links := by
  induction n with
  | zero => intro i s t h p h1 h2; omega
  | succ n ih =>
    intro i s t h p hit htn hres ht hh hav hrh hrk
    have hkeep : ∀ (s1 : pd_system), s1.drvdata = s.drvdata → i < t →
        (node_ref.pd h, node_ref.pd k) ∈ (dt_parse_parents nodes k np n (i + 1) s1).links := by
      intro s1 hs1 hlt
      refine ih (i + 1) s1 t h p (by omega) (by omega) (fun u hu1 hu2 => hres u (by omega) hu2)
        ht hh hav ?_ ?_
      · rw [get_drvdata_congr s s1 hs1]
        exact hrh
      · rw [get_drvdata_congr s s1 hs1]
        exact hrk
    by_cases hlt : i < t
    · have hi := hres i (le_refl _) hlt
      unfold dt_parse_parents
      split
      · rename_i hnone
        rw [hnone] at hi
        exact absurd hi (by decide)
      · split
        · exact hkeep s rfl hlt
        · split
          · exact hkeep _ rfl hlt
          · exact hkeep s rfl hlt
    · have hti : t = i := by omega
      subst hti
      have hph : of_parse_phandle nodes np t = some (h, p) := by
        unfold of_parse_phandle
        simp [ht, hh]
      obtain ⟨d1, hd1⟩ := Option.isSome_iff_exists.1 hrh
      obtain ⟨d2, hd2⟩ := Option.isSome_iff_exists.1 hrk
      unfold dt_parse_parents
      simp only [hph, hav, hd1, hd2]
      obtain ⟨l2, hl2, -⟩ := dt_parse_parents_links nodes k np n (t + 1)
        (pm_genpd_add_subdomain s (node_ref.pd h) (node_ref.pd k))
      simp only [Bool.true_eq_false, if_false]
      rw [hl2]
      simp [pm_genpd_add_subdomain]

theorem dt_parse_pass2_drvdata (nodes rest : List device_node) :
    ∀ (k : Nat) (s : pd_system), (dt_parse_pass2 nodes rest k s).drvdata = s.drvdata := by
  induction rest with
  | nil => intro k s; rfl
  | cons n0 rest ih =>
    intro k s
    unfold dt_parse_pass2
    split
    · exact ih _ _
    · rw [ih, dt_parse_parents_drvdata]

/-- The links the second loop adds are links to an available node of the loop
from an available node that one of its first MAX_PARENT_POWER_DOMAIN "parent"
phandles points to. -/
theorem dt_parse_pass2_links (nodes rest : List device_node) :
    ∀ (k : Nat) (s : pd_system),
      ∃ l2, (dt_parse_pass2 nodes rest k s).links = s.links ++ l2 ∧
        ∀ x ∈ l2, ∃ h c np t p, x = (node_ref.pd h, node_ref.pd c) ∧ k ≤ c ∧
          rest[c - k]? = some np ∧ np.available = true ∧ t < MAX_PARENT_POWER_DOMAIN ∧
          np.parent[t]? = some h ∧ nodes[h]? = some p ∧ p.available = true := by
  induction rest with
  | nil => intro k s; exact ⟨[], by simp [dt_parse_pass2], by simp⟩
  | cons n0 rest ih =>
    intro k s
    have hshift : ∀ (s1 : pd_system) (l1 : List (node_ref × node_ref)),
        (dt_parse_pass2 nodes rest (k + 1) s1).links = s1.links ++ l1 →
        (∀ x ∈ l1, ∃ h c np t p, x = (node_ref.pd h, node_ref.pd c) ∧ k + 1 ≤ c ∧
          rest[c - (k + 1)]? = some np ∧ np.available = true ∧ t < MAX_PARENT_POWER_DOMAIN ∧
          np.parent[t]? = some h ∧ nodes[h]? = some p ∧ p.available = true) →
        ∀ x ∈ l1, ∃ h c np t p, x = (node_ref.pd h, node_ref.pd c) ∧ k ≤ c ∧
          (n0 :: rest)[c - k]? = some np ∧ np.available = true ∧ t < MAX_PARENT_POWER_DOMAIN ∧
          np.parent[t]? = some h ∧ nodes[h]? = some p ∧ p.available = true := by
      intro s1 l1 _ hl1 x hx
      obtain ⟨h, c, np, t, p, e1, e2, e3, e4⟩ := hl1 x hx
      refine ⟨h, c, np, t, p, e1, by omega, ?_, e4⟩
      rw [show c - k = (c - (k + 1)) + 1 by omega]
      simpa using e3
    unfold dt_parse_pass2
    split
    · obtain ⟨l1, h1, hl1⟩ := ih (k + 1) s
      exact ⟨l1, h1, hshift s l1 h1 hl1⟩
    · rename_i hav
      obtain ⟨l0, h0, hl0⟩ := dt_parse_parents_links nodes k n0 MAX_PARENT_POWER_DOMAIN 0 s
      obtain ⟨l1, h1, hl1⟩ := ih (k + 1) (dt_parse_parents nodes k n0 MAX_PARENT_POWER_DOMAIN 0 s)
      refine ⟨l0 ++ l1, by rw [h1, h0, List.append_assoc], ?_⟩
      intro x hx
      rcases List.mem_append.1 hx with hx | hx
      · obtain ⟨h, t, p, e1, -, e3, e4⟩ := hl0 x hx
        exact ⟨h, k, n0, t, p, e1, le_refl _, by simp, bool_true_of_ne_false _ hav,
          by omega, e4⟩
      · exact hshift _ l1 h1 hl1 x hx

/-- The second loop links an available node under the target of its t-th
"parent" phandle when t is below MAX_PARENT_POWER_DOMAIN, all earlier
phandles resolve, the target is available and both domains are registered. -/
theorem dt_parse_pass2_linked (nodes rest : List device_node) :
    ∀ (k : Nat) (s : pd_system) (m : Nat) (np : device_node),
      rest[m]? = some np → np.available = true →
      ∀ (t h : Nat) (p : device_node), t < MAX_PARENT_POWER_DOMAIN →
        (∀ u, u < t → (of_parse_phandle nodes np u).isSome = true) →
        np.parent[t]? = some h → nodes[h]? = some p → p.available = true →
        (platform_get_drvdata s (node_ref.pd h)).isSome = true →
        (platform_get_drvdata s (node_ref.pd (k + m))).isSome = true →
        (node_ref.pd h, node_ref.pd (k + m)) ∈ (dt_parse_pass2 nodes rest k s).links := by
  induction rest with
  | nil => intro k s m np hm; simp at hm
  | cons n0 rest ih =>
    intro k s m np hm ha t h p ht hres hpt hh hav hrh hrk
    cases m with
    | zero =>
      simp at hm
      subst hm
      unfold dt_parse_pass2
      simp only [ha, Bool.true_eq_false, if_false]
      obtain ⟨l2, hl2, -⟩ := dt_parse_pass2_links nodes rest (k + 1)
        (dt_parse_parents nodes k n0 MAX_PARENT_POWER_DOMAIN 0 s)
      rw [hl2]
      refine List.mem_append_left _ ?_
      exact dt_parse_parents_linked nodes k n0 MAX_PARENT_POWER_DOMAIN 0 s t h p
        (Nat.zero_le _) (by omega) (fun u _ hu => hres u hu) hpt hh hav hrh hrk
    | succ m =>
      have hstep : ∀ (s1 : pd_system), s1.drvdata = s.drvdata →
          (node_ref.pd h, node_ref.pd (k + (m + 1))) ∈
            (dt_parse_pass2 nodes rest (k + 1) s1).links := by
        intro s1 hs1
        rw [show k + (m + 1) = k + 1 + m by omega]
        refine ih (k + 1) s1 m np (by simpa using hm) ha t h p ht hres hpt hh hav ?_ ?_
        · rw [get_drvdata_congr s s1 hs1]
          exact hrh
        · rw [get_drvdata_congr s s1 hs1, show k + 1 + m = k + (m + 1) by omega]
          exact hrk
      unfold dt_parse_pass2
      split
      · exact hstep s rfl
      · exact hstep _ (dt_parse_parents_drvdata _ _ _ _ _ _)

/-! ### Lookup by name -/

/-- What the lookup loop returns, when it returns a domain, is the driver
data of an available node of the loop, and it bears the name asked for. -/
theorem lookup_name_from_sound (s : pd_system) (n : String) (rest : List device_node) :
    ∀ (i : Nat) (d : exynos_pm_domain),
      lookup_name_from s n rest i = lookup_outcome.returns (some d) →
      ∃ m np, rest[m]? = some np ∧ np.available = true ∧
        platform_get_drvdata s (node_ref.pd (i + m)) = some d ∧ d.name = n := by
  induction rest with
  | nil => intro i d h; simp [lookup_name_from] at h
  | cons n0 rest ih =>
    intro i d h
    have hnext : lookup_name_from s n rest (i + 1) = lookup_outcome.returns (some d) →
        ∃ m np, (n0 :: rest)[m]? = some np ∧ np.available = true ∧
          platform_get_drvdata s (node_ref.pd (i + m)) = some d ∧ d.name = n := by
      intro h1
      obtain ⟨m, np, e1, e2, e3, e4⟩ := ih (i + 1) d h1
      refine ⟨m + 1, np, by simpa using e1, e2, ?_, e4⟩
      rw [show i + (m + 1) = i + 1 + m by omega]
      exact e3
    unfold lookup_name_from at h
    split at h
    · rename_i hav
      split at h
      · cases h
      · rename_i d0 hd0
        split at h
        · rename_i hname
          cases h
          exact ⟨0, n0, by simp, hav, hd0, hname⟩
        · exact hnext h
    · exact hnext h

/-- When every available node of the loop has driver data, the lookup loop
dereferences no NULL pointer, whatever the name asked for. -/
theorem lookup_name_from_returns (s : pd_system) (n : String) (rest : List device_node) :
    ∀ (i : Nat),
      (∀ (m : Nat) (np : device_node), rest[m]? = some np → np.available = true →
        ∃ d, platform_get_drvdata s (node_ref.pd (i + m)) = some d ∧ d.name = np.name) →
      ∃ r, lookup_name_from s n rest i = lookup_outcome.returns r := by
  induction rest with
  | nil => intro i _; exact ⟨none, rfl⟩
  | cons n0 rest ih =>
    intro i hreg
    have hnext : ∃ r, lookup_name_from s n rest (i + 1) = lookup_outcome.returns r := by
      refine ih (i + 1) ?_
      intro m2 np2 h2 ha2
      have := hreg (m2 + 1) np2 (by simpa using h2) ha2
      rw [show i + (m2 + 1) = i + 1 + m2 by omega] at this
      exact this
    unfold lookup_name_from
    by_cases hav : n0.available = true
    · obtain ⟨d0, hd0, -⟩ := hreg 0 n0 (by simp) hav
      simp only [hav, if_true]
      rw [show i + 0 = i by rfl] at hd0
      rw [hd0]
      simp only []
      by_cases hname : d0.name = n
      · exact ⟨some d0, by simp [hname]⟩
      · simp only [hname, if_false]
        exact hnext
    · simp only [hav, Bool.false_eq_true, if_false]
      exact hnext

/-- When every available node of the loop has driver data under its own name,
the lookup loop resolves the name of each of them. -/
theorem lookup_name_from_found (s : pd_system) (rest : List device_node) :
    ∀ (i : Nat),
      (∀ (m : Nat) (np : device_node), rest[m]? = some np → np.available = true →
        ∃ d, platform_get_drvdata s (node_ref.pd (i + m)) = some d ∧ d.name = np.name) →
      ∀ (m : Nat) (np : device_node), rest[m]? = some np → np.available = true →
        ∃ d, lookup_name_from s np.name rest i = lookup_outcome.returns (some d) := by
  induction rest with
  | nil => intro i _ m np hm; simp at hm
  | cons n0 rest ih =>
    intro i hreg m np hm ha
    have hnext : m ≠ 0 →
        ∃ d, lookup_name_from s np.name rest (i + 1) = lookup_outcome.returns (some d) := by
      intro hm0
      obtain ⟨m1, rfl⟩ := Nat.exists_eq_succ_of_ne_zero hm0
      refine ih (i + 1) ?_ m1 np (by simpa using hm) ha
      intro m2 np2 h2 ha2
      have := hreg (m2 + 1) np2 (by simpa using h2) ha2
      rw [show i + (m2 + 1) = i + 1 + m2 by omega] at this
      exact this
    unfold lookup_name_from
    by_cases hav : n0.available = true
    · obtain ⟨d0, hd0, hn0⟩ := hreg 0 n0 (by simp) hav
      simp only [hav, if_true]
      rw [show i + 0 = i by rfl] at hd0
      rw [hd0]
      simp only []
      by_cases hname : d0.name = np.name
      · exact ⟨d0, by simp [hname]⟩
      · simp only [hname, if_false]
        apply hnext
        intro hm0
        subst hm0
        simp at hm
        subst hm
        exact hname hn0
    · simp only [hav, Bool.false_eq_true, if_false]
      apply hnext
      intro hm0
      subst hm0
      simp at hm
      subst hm
      exact hav ha

/-! ### The whole construction -/

theorem get_drvdata_empty (r : node_ref) : platform_get_drvdata pd_system.empty r = none := rfl

/-- When exynos_pd_dt_parse returns 0 its first loop ran through and the state
it leaves is that of the second loop. -/
theorem dt_parse_ok (env : Env) (nodes : List device_node)
    (hok : (exynos_pd_dt_parse env nodes).1 = 0) :
    (dt_parse_pass1 env nodes 0 pd_system.empty).1 = 0 ∧
    (exynos_pd_dt_parse env nodes).2 =
      dt_parse_pass2 nodes nodes 0 (dt_parse_pass1 env nodes 0 pd_system.empty).2 := by
  unfold exynos_pd_dt_parse exynos_pd_dt_parse_from at hok ⊢
  simp only [] at hok ⊢
  by_cases h0 : (dt_parse_pass1 env nodes 0 pd_system.empty).1 ≠ 0
  · rw [if_pos h0] at hok
    exact absurd hok h0
  · rw [if_neg h0]
    exact ⟨by simpa using h0, rfl⟩

/-- When exynos_pd_dt_parse returns early the state it leaves is that of the
first loop. -/
theorem dt_parse_fail (env : Env) (nodes : List device_node)
    (hfail : (dt_parse_pass1 env nodes 0 pd_system.empty).1 ≠ 0) :
    exynos_pd_dt_parse env nodes = dt_parse_pass1 env nodes 0 pd_system.empty := by
  unfold exynos_pd_dt_parse exynos_pd_dt_parse_from
  simp only []
  rw [if_pos hfail]

/-- The driver data of the power-domain nodes after exynos_pd_dt_parse is
that left by the first loop. -/
theorem dt_parse_get_pd (env : Env) (nodes : List device_node) (m : Nat) :
    platform_get_drvdata (exynos_pd_dt_parse env nodes).2 (node_ref.pd m) =
      platform_get_drvdata (dt_parse_pass1 env nodes 0 pd_system.empty).2 (node_ref.pd m) := by
  by_cases h0 : (dt_parse_pass1 env nodes 0 pd_system.empty).1 ≠ 0
  · rw [dt_parse_fail env nodes h0]
  · have hok : (exynos_pd_dt_parse env nodes).1 = 0 := by
      unfold exynos_pd_dt_parse exynos_pd_dt_parse_from
      simp only []
      rw [if_neg h0]
    rw [(dt_parse_ok env nodes hok).2]
    exact get_drvdata_congr _ _ (dt_parse_pass2_drvdata _ _ _ _) _

/-- Whatever exynos_pd_dt_parse registers for a power-domain node is the
physical domain of that node, which is available, under the node's name. -/
theorem dt_parse_pd_entries (env : Env) (nodes : List device_node) (m : Nat)
    (d : exynos_pm_domain)
    (h : platform_get_drvdata (exynos_pd_dt_parse env nodes).2 (node_ref.pd m) = some d) :
    ∃ np, nodes[m]? = some np ∧ np.available = true ∧ d.name = np.name ∧
      d.pd_control = some pd_control_fn.cal_pd_control := by
  rw [dt_parse_get_pd] at h
  rcases dt_parse_pass1_get_pd env nodes 0 pd_system.empty m d h with h1 | ⟨-, np, h1, h2⟩
  · rw [get_drvdata_empty] at h1
    cases h1
  · exact ⟨np, by simpa using h1, h2⟩

/-- The links exynos_pd_dt_parse leaves: first those of the first loop, from
a node to its own child nodes, then those of the second loop, from an
available node to an available node that names it among its first
MAX_PARENT_POWER_DOMAIN "parent" phandles. -/
theorem dt_parse_links (env : Env) (nodes : List device_node) :
    ∃ l1 l2, (exynos_pd_dt_parse env nodes).2.links = l1 ++ l2 ∧
      (dt_parse_pass1 env nodes 0 pd_system.empty).2.links = l1 ∧
      (∀ x ∈ l1, ∃ i j, x = (node_ref.pd i, node_ref.spd i j)) ∧
      (∀ x ∈ l2, ∃ h c np t p, x = (node_ref.pd h, node_ref.pd c) ∧
        nodes[c]? = some np ∧ np.available = true ∧ t < MAX_PARENT_POWER_DOMAIN ∧
        np.parent[t]? = some h ∧ nodes[h]? = some p ∧ p.available = true) := by
  obtain ⟨l1, h1, hl1⟩ := dt_parse_pass1_links env nodes 0 pd_system.empty
  have h1a : (dt_parse_pass1 env nodes 0 pd_system.empty).2.links = l1 := by
    rw [h1]
    rfl
  by_cases h0 : (dt_parse_pass1 env nodes 0 pd_system.empty).1 ≠ 0
  · refine ⟨l1, [], ?_, h1a, hl1, by simp⟩
    rw [dt_parse_fail env nodes h0, h1a]
    simp
  · have hok : (exynos_pd_dt_parse env nodes).1 = 0 := by
      unfold exynos_pd_dt_parse exynos_pd_dt_parse_from
      simp only []
      rw [if_neg h0]
    obtain ⟨l2, h2, hl2⟩ := dt_parse_pass2_links nodes nodes 0
      (dt_parse_pass1 env nodes 0 pd_system.empty).2
    refine ⟨l1, l2, ?_, h1a, hl1, ?_⟩
    · rw [(dt_parse_ok env nodes hok).2, h2, h1a]
    · intro x hx
      obtain ⟨h, c, np, t, p, e1, -, e3, e4⟩ := hl2 x hx
      exact ⟨h, c, np, t, p, e1, by simpa using e3, e4⟩

/-- Claim C5 (as amended): when exynos_pd_dt_parse returns 0, the links it
leaves are first those of pass 1 and then those of pass 2; pass 1 links every
child node that has a platform device under its available power-domain node;
pass 2 links every available node under the available target of each of its
first MAX_PARENT_POWER_DOMAIN "parent" phandles (as long as the phandles
before it resolve), hence after the logical children of that target; and
exynos_pd_lookup_name resolves the name of every available power-domain node
to a physical domain of that name, and resolves no other name: never to a
logical sub-domain; it dereferences no NULL pointer on the way. -/
theorem build_links_then_lookup_physical (env : Env) (nodes : List device_node)
    (hok : (exynos_pd_dt_parse env nodes).1 = 0) :
    ∃ l1 l2, (exynos_pd_dt_parse env nodes).2.links = l1 ++ l2 ∧
      (∀ x ∈ l1, ∃ i j, x = (node_ref.pd i, node_ref.spd i j)) ∧
      (∀ x ∈ l2, ∃ h c, x = (node_ref.pd h, node_ref.pd c)) ∧
      (∀ (i : Nat) (np : device_node) (j : Nat) (c : sub_node),
        nodes[i]? = some np → np.available = true →
        np.children[j]? = some c → c.pdev = true →
        (node_ref.pd i, node_ref.spd i j) ∈ l1) ∧
      (∀ (k : Nat) (np : device_node) (t h : Nat) (p : device_node),
        nodes[k]? = some np → np.available = true → t < MAX_PARENT_POWER_DOMAIN →
        (∀ u, u < t → (of_parse_phandle nodes np u).isSome = true) →
        np.parent[t]? = some h → nodes[h]? = some p → p.available = true →
        (node_ref.pd h, node_ref.pd k) ∈ l2) ∧
      (∀ (i : Nat) (np : device_node), nodes[i]? = some np → np.available = true →
        ∃ d, exynos_pd_lookup_name nodes (exynos_pd_dt_parse env nodes).2 (some np.name) =
            lookup_outcome.returns (some d) ∧
          d.name = np.name ∧ d.pd_control = some pd_control_fn.cal_pd_control) ∧
      (∀ (n : String) (d : exynos_pm_domain),
        exynos_pd_lookup_name nodes (exynos_pd_dt_parse env nodes).2 (some n) =
          lookup_outcome.returns (some d) →
        d.pd_control = some pd_control_fn.cal_pd_control ∧
          ∃ (i : Nat) (np : device_node), nodes[i]? = some np ∧ np.available = true ∧ np.name = n) ∧
      (∀ (n : Option String),
        ∃ r, exynos_pd_lookup_name nodes (exynos_pd_dt_parse env nodes).2 n =
          lookup_outcome.returns r) := by
  obtain ⟨hp1, hs⟩ := dt_parse_ok env nodes hok
  obtain ⟨l1, l2, hl, hl1eq, hl1, hl2⟩ := dt_parse_links env nodes
  have hreg : ∀ (m : Nat) (np : device_node), nodes[m]? = some np → np.available = true →
      ∃ d, platform_get_drvdata (exynos_pd_dt_parse env nodes).2 (node_ref.pd (0 + m)) = some d ∧
        d.name = np.name := by
    intro m np hm ha
    obtain ⟨d, hd, hn, -⟩ := dt_parse_pass1_registered env nodes 0 pd_system.empty hp1 m np hm ha
    exact ⟨d, by rw [dt_parse_get_pd]; exact hd, hn⟩
  have hsound : ∀ (n : String) (d : exynos_pm_domain),
      exynos_pd_lookup_name nodes (exynos_pd_dt_parse env nodes).2 (some n) =
        lookup_outcome.returns (some d) →
      d.name = n ∧ d.pd_control = some pd_control_fn.cal_pd_control ∧
        ∃ (i : Nat) (np : device_node), nodes[i]? = some np ∧ np.available = true ∧ np.name = n := by
    intro n d hd
    obtain ⟨m, np, -, -, e3, e4⟩ := lookup_name_from_sound _ n nodes 0 d hd
    obtain ⟨np1, f1, f2, f3, f4⟩ := dt_parse_pd_entries env nodes (0 + m) d e3
    exact ⟨e4, f4, 0 + m, np1, f1, f2, by rw [← f3, e4]⟩
  refine ⟨l1, l2, hl, hl1, ?_, ?_, ?_, ?_, ?_, ?_⟩
  · intro x hx
    obtain ⟨h, c, -, -, -, e, -⟩ := hl2 x hx
    exact ⟨h, c, e⟩
  · intro i np j c hi ha hj hp
    have := dt_parse_pass1_linked env nodes 0 pd_system.empty hp1 i np hi ha j c hj hp
    rw [hl1eq] at this
    simpa using this
  · intro k np t h p hk ha ht hres hpt hh hav
    obtain ⟨dh, hdh, -⟩ := hreg h p hh hav
    obtain ⟨dk, hdk, -⟩ := hreg k np hk ha
    rw [dt_parse_get_pd] at hdh hdk
    have hmem := dt_parse_pass2_linked nodes nodes 0
      (dt_parse_pass1 env nodes 0 pd_system.empty).2 k np hk ha t h p ht hres hpt hh hav
      (by rw [show h = 0 + h by omega, hdh]; rfl) (by rw [hdk]; rfl)
    rw [← hs, hl, Nat.zero_add] at hmem
    rcases List.mem_append.1 hmem with hm | hm
    · obtain ⟨i, j, e⟩ := hl1 _ hm
      cases e
    · exact hm
  · intro i np hi ha
    obtain ⟨d, hd⟩ := lookup_name_from_found _ nodes 0 hreg i np hi ha
    have hd1 : exynos_pd_lookup_name nodes (exynos_pd_dt_parse env nodes).2 (some np.name) =
        lookup_outcome.returns (some d) := hd
    obtain ⟨e1, e2, -⟩ := hsound np.name d hd1
    exact ⟨d, hd1, e1, e2⟩
  · intro n d hd
    exact (hsound n d hd).2
  · intro n
    cases n with
    | none => exact ⟨none, rfl⟩
    | some n => exact lookup_name_from_returns _ n nodes 0 hreg

/-- Claim C6 (as amended): for every device tree, every link
exynos_pd_dt_parse leaves is either from a power-domain node to one of its own
child nodes, or from an available node to an available node that names it
among its first MAX_PARENT_POWER_DOMAIN "parent" phandles. Hence a logical
sub-domain has no parent but the node it is nested under, and a node that
lists at most one "parent" phandle has at most one parent. -/
theorem build_links_follow_references (env : Env) (nodes : List device_node) :
    (∀ x ∈ (exynos_pd_dt_parse env nodes).2.links,
      (∃ i j, x = (node_ref.pd i, node_ref.spd i j)) ∨
      (∃ h c np t p, x = (node_ref.pd h, node_ref.pd c) ∧
        nodes[c]? = some np ∧ np.available = true ∧ t < MAX_PARENT_POWER_DOMAIN ∧
        np.parent[t]? = some h ∧ nodes[h]? = some p ∧ p.available = true)) ∧
    (∀ (i j : Nat) (m : node_ref),
      (m, node_ref.spd i j) ∈ (exynos_pd_dt_parse env nodes).2.links → m = node_ref.pd i) ∧
    (∀ (c : Nat) (np : device_node), nodes[c]? = some np → np.parent.length ≤ 1 →
      ∀ (m1 m2 : node_ref),
        (m1, node_ref.pd c) ∈ (exynos_pd_dt_parse env nodes).2.links →
        (m2, node_ref.pd c) ∈ (exynos_pd_dt_parse env nodes).2.links → m1 = m2) := by
  obtain ⟨l1, l2, hl, -, hl1, hl2⟩ := dt_parse_links env nodes
  have hall : ∀ x ∈ (exynos_pd_dt_parse env nodes).2.links,
      (∃ i j, x = (node_ref.pd i, node_ref.spd i j)) ∨
      (∃ h c np t p, x = (node_ref.pd h, node_ref.pd c) ∧
        nodes[c]? = some np ∧ np.available = true ∧ t < MAX_PARENT_POWER_DOMAIN ∧
        np.parent[t]? = some h ∧ nodes[h]? = some p ∧ p.available = true) := by
    intro x hx
    rw [hl] at hx
    rcases List.mem_append.1 hx with hx | hx
    · exact Or.inl (hl1 x hx)
    · exact Or.inr (hl2 x hx)
  have hone : ∀ (c : Nat) (np : device_node), nodes[c]? = some np → np.parent.length ≤ 1 →
      ∀ (m : node_ref), (m, node_ref.pd c) ∈ (exynos_pd_dt_parse env nodes).2.links →
        np.parent[0]? = some (match m with | node_ref.pd h => h | node_ref.spd _ _ => 0) ∧
          ∃ h, m = node_ref.pd h := by
    intro c np hc hlen m hm
    rcases hall _ hm with ⟨i, j, e⟩ | ⟨h, c1, np1, t, p, e, f1, -, -, f4, -⟩
    · cases e
    · cases e
      rw [hc] at f1
      cases f1
      have ht : t = 0 := by
        have := (List.getElem?_eq_some_iff.1 f4).1
        omega
      subst ht
      exact ⟨f4, h, rfl⟩
  refine ⟨hall, ?_, ?_⟩
  · intro i j m hm
    rcases hall _ hm with ⟨i1, j1, e⟩ | ⟨h, c, np, t, p, e, -⟩
    · cases e
      rfl
    · cases e
  · intro c np hc hlen m1 m2 h1 h2
    obtain ⟨e1, a, rfl⟩ := hone c np hc hlen m1 h1
    obtain ⟨e2, b, rfl⟩ := hone c np hc hlen m2 h2
    simp only [] at e1 e2
    rw [e1] at e2
    cases e2
    rfl

/-- Claim C7 (as amended): when the nodes before an available node without
"cal_id" pass the first loop and the allocation for that node succeeds,
exynos_pd_dt_parse returns -ENODEV and leaves exactly what the first loop
built from the preceding nodes: their physical domains stay registered under
their names, their child nodes with a platform device stay linked under them,
and nothing is registered for the faulty node or any node after it. -/
theorem missing_cal_id_keeps_earlier_domains (env : Env) (pre post : List device_node)
    (bad : device_node) (hbad : bad.available = true) (hid : bad.cal_id = none)
    (hpre : (dt_parse_pass1 env pre 0 pd_system.empty).1 = 0)
    (hk : env.kzalloc (dt_parse_pass1 env pre 0 pd_system.empty).2.trace = true) :
    exynos_pd_dt_parse env (pre ++ bad :: post) =
      (-ENODEV, (dt_parse_pass1 env pre 0 pd_system.empty).2.emit (Event.kzalloc true)) ∧
    (∀ (i : Nat) (np : device_node), pre[i]? = some np → np.available = true →
      ∃ d, platform_get_drvdata (exynos_pd_dt_parse env (pre ++ bad :: post)).2
          (node_ref.pd i) = some d ∧
        d.name = np.name ∧ d.pd_control = some pd_control_fn.cal_pd_control) ∧
    (∀ (i : Nat) (np : device_node) (j : Nat) (c : sub_node),
      pre[i]? = some np → np.available = true →
      np.children[j]? = some c → c.pdev = true →
      (node_ref.pd i, node_ref.spd i j) ∈
        (exynos_pd_dt_parse env (pre ++ bad :: post)).2.links) ∧
    (∀ (m : Nat), pre.length ≤ m →
      platform_get_drvdata (exynos_pd_dt_parse env (pre ++ bad :: post)).2
        (node_ref.pd m) = none) := by
  have hnode := dt_parse_node_missing_cal_id env pre.length bad
    (dt_parse_pass1 env pre 0 pd_system.empty).2 hbad hk hid
  have hp1 : dt_parse_pass1 env (pre ++ bad :: post) 0 pd_system.empty =
      (-ENODEV, (dt_parse_pass1 env pre 0 pd_system.empty).2.emit (Event.kzalloc true)) := by
    rw [dt_parse_pass1_append env pre (bad :: post) 0 pd_system.empty hpre]
    conv_lhs => unfold dt_parse_pass1
    simp only [Nat.zero_add, hnode]
    simp [ENODEV]
  have hres : exynos_pd_dt_parse env (pre ++ bad :: post) =
      (-ENODEV, (dt_parse_pass1 env pre 0 pd_system.empty).2.emit (Event.kzalloc true)) := by
    rw [dt_parse_fail env _ (by rw [hp1]; simp [ENODEV]), hp1]
  rw [hres]
  refine ⟨rfl, ?_, ?_, ?_⟩
  · intro i np hi ha
    have := dt_parse_pass1_registered env pre 0 pd_system.empty hpre i np hi ha
    rw [Nat.zero_add] at this
    exact this
  · intro i np j c hi ha hj hp
    have := dt_parse_pass1_linked env pre 0 pd_system.empty hpre i np hi ha j c hj hp
    rw [Nat.zero_add] at this
    exact this
  · intro m hm
    cases hget : platform_get_drvdata (dt_parse_pass1 env pre 0 pd_system.empty).2
        (node_ref.pd m) with
    | none => exact hget
    | some d =>
      rcases dt_parse_pass1_get_pd env pre 0 pd_system.empty m d hget with h1 | ⟨-, np, h1, -⟩
      · rw [get_drvdata_empty] at h1
        cases h1
      · have := (List.getElem?_eq_some_iff.1 h1).1
        omega

/-! ### Instances at the sample device trees -/

/-- Counterexample to C5 as stated: for physical A with logical child "A.sub"
and physical B with parent A, construction succeeds, "A.sub" is registered and
the children of A are "A.sub" then B, and the lookup of "B" resolves, but the
lookup of "A.sub" does not. -/
theorem lookup_misses_logical_child :
    (exynos_pd_dt_parse env_ok dt_AB).1 = 0 ∧
    domain_name_of (exynos_pd_dt_parse env_ok dt_AB).2 (node_ref.spd 0 0) = some "A.sub" ∧
    (children_of (exynos_pd_dt_parse env_ok dt_AB).2 (node_ref.pd 0)).map
        (domain_name_of (exynos_pd_dt_parse env_ok dt_AB).2) = [some "A.sub", some "B"] ∧
    (∃ d, exynos_pd_lookup_name dt_AB (exynos_pd_dt_parse env_ok dt_AB).2 (some "B") =
        lookup_outcome.returns (some d) ∧ d.name = "B") ∧
    exynos_pd_lookup_name dt_AB (exynos_pd_dt_parse env_ok dt_AB).2 (some "A.sub") =
      lookup_outcome.returns none := by
  refine ⟨rfl, rfl, rfl, ⟨_, rfl, rfl⟩, rfl⟩

/-- Witness for C5: the device tree of A with child "A.sub" and B under A. -/
theorem build_links_then_lookup_physical_witness :
    (exynos_pd_dt_parse env_ok dt_AB).1 = 0 ∧
    (node_ref.pd 0, node_ref.spd 0 0) ∈ (exynos_pd_dt_parse env_ok dt_AB).2.links ∧
    (node_ref.pd 0, node_ref.pd 1) ∈ (exynos_pd_dt_parse env_ok dt_AB).2.links ∧
    ∃ d, exynos_pd_lookup_name dt_AB (exynos_pd_dt_parse env_ok dt_AB).2 (some node_B.name) =
        lookup_outcome.returns (some d) ∧
      d.name = node_B.name ∧ d.pd_control = some pd_control_fn.cal_pd_control := by
  obtain ⟨l1, l2, hl, -, -, h1, h2, h3, -, -⟩ :=
    build_links_then_lookup_physical env_ok dt_AB rfl
  refine ⟨rfl, ?_, ?_, h3 1 node_B rfl rfl⟩
  · rw [hl]
    exact List.mem_append_left _
      (h1 0 node_A 0 ⟨"A.sub", none, none, true⟩ rfl rfl rfl rfl)
  · rw [hl]
    exact List.mem_append_right _
      (h2 1 node_B 0 0 node_A rfl rfl (by decide) (fun u hu => absurd hu (Nat.not_lt_zero u))
        rfl rfl rfl)

/-- Counterexample to C6 as stated: a node that names two available parents
is linked under both, and two nodes that name each other are linked under
each other. -/
theorem build_makes_two_parents_and_cycle :
    (exynos_pd_dt_parse env_ok dt_ABC).1 = 0 ∧
    (node_ref.pd 0, node_ref.pd 2) ∈ (exynos_pd_dt_parse env_ok dt_ABC).2.links ∧
    (node_ref.pd 1, node_ref.pd 2) ∈ (exynos_pd_dt_parse env_ok dt_ABC).2.links ∧
    (exynos_pd_dt_parse env_ok dt_cycle).1 = 0 ∧
    (node_ref.pd 1, node_ref.pd 0) ∈ (exynos_pd_dt_parse env_ok dt_cycle).2.links ∧
    (node_ref.pd 0, node_ref.pd 1) ∈ (exynos_pd_dt_parse env_ok dt_cycle).2.links := by
  refine ⟨rfl, ?_, ?_, rfl, ?_, ?_⟩ <;> decide

/-- Witness for C6: in the device tree of A and B, B lists one parent and has
one parent. -/
theorem build_links_follow_references_witness :
    ∀ (m1 m2 : node_ref),
      (m1, node_ref.pd 1) ∈ (exynos_pd_dt_parse env_ok dt_AB).2.links →
      (m2, node_ref.pd 1) ∈ (exynos_pd_dt_parse env_ok dt_AB).2.links → m1 = m2 :=
  (build_links_follow_references env_ok dt_AB).2.2 1 node_B rfl (by decide)

/-- Counterexample to C7 as stated: with A (and its logical child) before a
node without "cal_id", exynos_pd_dt_parse returns -ENODEV and A and "A.sub"
stay registered and linked. -/
theorem failed_build_leaves_partial_tree :
    node_X.available = true ∧ node_X.cal_id = none ∧
    (exynos_pd_dt_parse env_ok dt_AXB).1 = -ENODEV ∧
    domain_name_of (exynos_pd_dt_parse env_ok dt_AXB).2 (node_ref.pd 0) = some "A" ∧
    domain_name_of (exynos_pd_dt_parse env_ok dt_AXB).2 (node_ref.spd 0 0) = some "A.sub" ∧
    (exynos_pd_dt_parse env_ok dt_AXB).2.links = [(node_ref.pd 0, node_ref.spd 0 0)] := by
  refine ⟨rfl, rfl, rfl, rfl, rfl, rfl⟩

/-- Witness for C7: A, then a node without "cal_id", then B. -/
theorem missing_cal_id_keeps_earlier_domains_witness :
    (exynos_pd_dt_parse env_ok ([node_A] ++ node_X :: [node_B])).1 = -ENODEV ∧
    (∃ d, platform_get_drvdata (exynos_pd_dt_parse env_ok ([node_A] ++ node_X :: [node_B])).2
        (node_ref.pd 0) = some d ∧
      d.name = node_A.name ∧ d.pd_control = some pd_control_fn.cal_pd_control) ∧
    platform_get_drvdata (exynos_pd_dt_parse env_ok ([node_A] ++ node_X :: [node_B])).2
      (node_ref.pd 2) = none := by
  obtain ⟨h1, h2, -, h4⟩ :=
    missing_cal_id_keeps_earlier_domains env_ok [node_A] [node_B] node_X rfl rfl rfl rfl
  refine ⟨?_, h2 0 node_A rfl rfl, h4 2 (by decide)⟩
  rw [h1]

/-! ### What construction registers -/

theorem genpd_init_keeps (b : Option String) (pd : exynos_pm_domain) (st : Int)
    (t : List Event) :
    (exynos_pd_genpd_init b pd st t).1.pd_control = pd.pd_control ∧
    (exynos_pd_genpd_init b pd st t).1.check_status = pd.check_status ∧
    (exynos_pd_genpd_init b pd st t).1.cal_pdid = pd.cal_pdid := by
  unfold exynos_pd_genpd_init
  simp only []
  split <;> exact ⟨rfl, rfl, rfl⟩

theorem get_drvdata_mem (s : pd_system) (r : node_ref) (d : exynos_pm_domain)
    (h : platform_get_drvdata s r = some d) : (r, d) ∈ s.drvdata := by
  unfold platform_get_drvdata at h
  generalize s.drvdata = l at h
  induction l with
  | nil => simp [List.lookup] at h
  | cons a rest ih =>
    obtain ⟨k, v⟩ := a
    by_cases hk : r = k
    · subst hk
      simp [List.lookup] at h
      subst h
      exact List.mem_cons_self _ _
    · have hne : (r == k) = false := by
        rw [beq_eq_false_iff_ne]
        exact hk
      simp only [List.lookup, hne] at h
      exact List.mem_cons_of_mem _ (ih h)

/-- One turn of the child loop registers at most the logical sub-domain of the
child node: no control function, no status function, hardware id left zero. -/
theorem dt_parse_child_entries (env : Env) (i : Nat) (st : Int) (j : Nat) (c : sub_node)
    (s : pd_system) :
    ∀ x ∈ (dt_parse_child env i st j c s).2.drvdata,
      x ∈ s.drvdata ∨
      (x.1 = node_ref.spd i j ∧ x.2.pd_control = none ∧ x.2.check_status = none ∧
        x.2.cal_pdid = 0) := by
  intro x hx
  unfold dt_parse_child at hx
  simp only [] at hx
  by_cases hk : env.kzalloc s.trace = false
  · left
    simpa [hk, pd_system.emit] using hx
  · by_cases hp : c.pdev = false
    · left
      simpa [hk, hp, pd_system.emit] using hx
    · have hk1 : env.kzalloc s.trace = true := bool_true_of_ne_false _ hk
      have hp1 : c.pdev = true := bool_true_of_ne_false _ hp
      simp only [hk1, hp1, Bool.true_eq_false, if_false, pm_genpd_add_subdomain,
        platform_set_drvdata, List.mem_cons] at hx
      rcases hx with hx | hx
      · subst hx
        right
        refine ⟨rfl, ?_, ?_, ?_⟩
        · rw [(genpd_init_keeps _ _ _ _).1]
        · rw [(genpd_init_keeps _ _ _ _).2.1]
          rfl
        · rw [(genpd_init_keeps _ _ _ _).2.2]
          rfl
      · left
        simpa [pd_system.emit] using hx

theorem dt_parse_children_entries (env : Env) (i : Nat) (st : Int) (cs : List sub_node) :
    ∀ (j : Nat) (s : pd_system),
      ∀ x ∈ (dt_parse_children env i st cs j s).2.drvdata,
        x ∈ s.drvdata ∨
        (∃ j1, x.1 = node_ref.spd i j1 ∧ x.2.pd_control = none ∧ x.2.check_status = none ∧
          x.2.cal_pdid = 0) := by
  induction cs with
  | nil => intro j s x hx; exact Or.inl hx
  | cons c rest ih =>
    intro j s x hx
    have hc : ∀ x ∈ (dt_parse_child env i st j c s).2.drvdata,
        x ∈ s.drvdata ∨
        (∃ j1, x.1 = node_ref.spd i j1 ∧ x.2.pd_control = none ∧ x.2.check_status = none ∧
          x.2.cal_pdid = 0) := by
      intro y hy
      rcases dt_parse_child_entries env i st j c s y hy with h | h
      · exact Or.inl h
      · exact Or.inr ⟨j, h⟩
    unfold dt_parse_children at hx
    simp only [] at hx
    split at hx
    · exact hc x hx
    · rcases ih (j + 1) _ x hx with h | h
      · exact hc x h
      · exact Or.inr h

/-- One turn of the first loop registers at most the physical domain of the
node, with both function pointers set and the node's "cal_id" as hardware id,
and logical sub-domains of its child nodes. -/
theorem dt_parse_node_entries (env : Env) (i : Nat) (np : device_node) (s : pd_system) :
    ∀ x ∈ (dt_parse_node env i np s).2.drvdata,
      x ∈ s.drvdata ∨
      (∃ j1, x.1 = node_ref.spd i j1 ∧ x.2.pd_control = none ∧ x.2.check_status = none ∧
        x.2.cal_pdid = 0) ∨
      (x.1 = node_ref.pd i ∧ x.2.pd_control = some pd_control_fn.cal_pd_control ∧
        x.2.check_status = some check_status_fn.exynos_pd_status ∧
        np.cal_id = some x.2.cal_pdid) := by
  intro x hx
  by_cases ha : np.available = false
  · left
    unfold dt_parse_node at hx
    simpa [ha] using hx
  · have ha1 : np.available = true := bool_true_of_ne_false _ ha
    by_cases hk : env.kzalloc s.trace = false
    · left
      unfold dt_parse_node at hx
      simpa [hk, pd_system.emit, ha1] using hx
    · have hk1 : env.kzalloc s.trace = true := bool_true_of_ne_false _ hk
      cases hid : np.cal_id with
      | none =>
        left
        unfold dt_parse_node at hx
        simpa [pd_system.emit, ha1, hk1, hid] using hx
      | some cal_id =>
        by_cases hst : env.cal_pd_status (s.trace ++ [Event.kzalloc true]) cal_id = -1
        · left
          unfold dt_parse_node at hx
          simpa [pd_system.emit, ha1, hk1, hid, hst] using hx
        · unfold dt_parse_node at hx
          simp only [ha1, hk1, hid, hst, if_false, Bool.true_eq_false, pd_system.emit] at hx
          rcases dt_parse_children_entries env i _ np.children 0 _ x hx with h | h
          · simp only [platform_set_drvdata, List.mem_cons] at h
            rcases h with rfl | h
            · right
              right
              refine ⟨rfl, ?_, ?_, ?_⟩
              · rw [(genpd_init_keeps _ _ _ _).1]
              · rw [(genpd_init_keeps _ _ _ _).2.1]
              · rw [(genpd_init_keeps _ _ _ _).2.2]
            · exact Or.inl h
          · exact Or.inr (Or.inl h)

theorem dt_parse_pass1_entries (env : Env) (nodes rest : List device_node) :
    ∀ (i : Nat) (s : pd_system),
      (∀ (m : Nat) (np : device_node), rest[m]? = some np → nodes[i + m]? = some np) →
      ∀ x ∈ (dt_parse_pass1 env rest i s).2.drvdata,
        x ∈ s.drvdata ∨
        (∃ i1 j1, x.1 = node_ref.spd i1 j1 ∧ x.2.pd_control = none ∧
          x.2.check_status = none ∧ x.2.cal_pdid = 0) ∨
        (∃ i1 np, x.1 = node_ref.pd i1 ∧ nodes[i1]? = some np ∧
          x.2.pd_control = some pd_control_fn.cal_pd_control ∧
          x.2.check_status = some check_status_fn.exynos_pd_status ∧
          np.cal_id = some x.2.cal_pdid) := by
  induction rest with
  | nil => intro i s _ x hx; exact Or.inl hx
  | cons n0 rest ih =>
    intro i s hrest x hx
    have h0 : nodes[i]? = some n0 := by
      have := hrest 0 n0 (by simp)
      simpa using this
    have hnode : ∀ y ∈ (dt_parse_node env i n0 s).2.drvdata,
        y ∈ s.drvdata ∨
        (∃ i1 j1, y.1 = node_ref.spd i1 j1 ∧ y.2.pd_control = none ∧
          y.2.check_status = none ∧ y.2.cal_pdid = 0) ∨
        (∃ i1 np, y.1 = node_ref.pd i1 ∧ nodes[i1]? = some np ∧
          y.2.pd_control = some pd_control_fn.cal_pd_control ∧
          y.2.check_status = some check_status_fn.exynos_pd_status ∧
          np.cal_id = some y.2.cal_pdid) := by
      intro y hy
      rcases dt_parse_node_entries env i n0 s y hy with h | h | ⟨e1, e2, e3, e4⟩
      · exact Or.inl h
      · exact Or.inr (Or.inl ⟨i, h⟩)
      · exact Or.inr (Or.inr ⟨i, n0, e1, h0, e2, e3, e4⟩)
    unfold dt_parse_pass1 at hx
    simp only [] at hx
    split at hx
    · exact hnode x hx
    · have hrest1 : ∀ (m : Nat) (np : device_node), rest[m]? = some np →
          nodes[i + 1 + m]? = some np := by
        intro m np hm
        have := hrest (m + 1) np (by simpa using hm)
        rw [show i + 1 + m = i + (m + 1) by omega]
        exact this
      rcases ih (i + 1) _ hrest1 x hx with h | h
      · exact hnode x h
      · exact Or.inr h

/-- Everything exynos_pd_dt_parse registers is a logical sub-domain (no control
function, no status function, hardware id zero) under a child node, or a
physical domain (both functions set, the node's "cal_id" as hardware id) under
a power-domain node. -/
theorem dt_parse_entries (env : Env) (nodes : List device_node) :
    ∀ x ∈ (exynos_pd_dt_parse env nodes).2.drvdata,
      (∃ i1 j1, x.1 = node_ref.spd i1 j1 ∧ x.2.pd_control = none ∧
        x.2.check_status = none ∧ x.2.cal_pdid = 0) ∨
      (∃ i1 np, x.1 = node_ref.pd i1 ∧ nodes[i1]? = some np ∧
        x.2.pd_control = some pd_control_fn.cal_pd_control ∧
        x.2.check_status = some check_status_fn.exynos_pd_status ∧
        np.cal_id = some x.2.cal_pdid) := by
  intro x hx
  have hdrv : (exynos_pd_dt_parse env nodes).2.drvdata =
      (dt_parse_pass1 env nodes 0 pd_system.empty).2.drvdata := by
    by_cases h0 : (dt_parse_pass1 env nodes 0 pd_system.empty).1 ≠ 0
    · rw [dt_parse_fail env nodes h0]
    · have hok : (exynos_pd_dt_parse env nodes).1 = 0 := by
        unfold exynos_pd_dt_parse exynos_pd_dt_parse_from
        simp only []
        rw [if_neg h0]
      rw [(dt_parse_ok env nodes hok).2, dt_parse_pass2_drvdata]
  rw [hdrv] at hx
  rcases dt_parse_pass1_entries env nodes nodes 0 pd_system.empty
    (fun m np hm => by simpa using hm) x hx with h | h
  · simp [pd_system.empty] at h
  · exact h

/-- Claim C8 (as amended): of the domains exynos_pd_dt_parse registers, every
physical one has exynos_pd_status installed as its status query, and the query
takes the domain's lock, asks the hardware for the status of the domain's
hardware id (the "cal_id" of its node), releases the lock and returns that
status, leaving the domain as it was; every logical one has no control
function and no status query installed, so there is nothing to call on it: no
value is returned and no hardware call is made. -/
theorem status_query_on_physical_only (env : Env) (nodes : List device_node) :
    (∀ (i : Nat) (d : exynos_pm_domain),
      platform_get_drvdata (exynos_pd_dt_parse env nodes).2 (node_ref.pd i) = some d →
      d.pd_control = some pd_control_fn.cal_pd_control ∧
      d.check_status = some check_status_fn.exynos_pd_status ∧
      (∃ np, nodes[i]? = some np ∧ np.cal_id = some d.cal_pdid) ∧
      ∀ (env2 : Env) (trace : List Event),
        call_check_status env2 d trace =
          some (env2.cal_pd_status (trace ++ [Event.mutex_lock d.name]) d.cal_pdid,
            some d,
            trace ++ [Event.mutex_lock d.name,
              Event.cal_pd_status d.cal_pdid
                (env2.cal_pd_status (trace ++ [Event.mutex_lock d.name]) d.cal_pdid),
              Event.mutex_unlock d.name])) ∧
    (∀ (i j : Nat) (d : exynos_pm_domain),
      platform_get_drvdata (exynos_pd_dt_parse env nodes).2 (node_ref.spd i j) = some d →
      d.pd_control = none ∧ d.check_status = none ∧
      ∀ (env2 : Env) (trace : List Event), call_check_status env2 d trace = none) := by
  constructor
  · intro i d hd
    rcases dt_parse_entries env nodes _ (get_drvdata_mem _ _ _ hd) with
      ⟨i1, j1, e, -⟩ | ⟨i1, np, e1, e2, e3, e4, e5⟩
    · cases e
    · cases e1
      refine ⟨e3, e4, ⟨np, e2, e5⟩, ?_⟩
      intro env2 trace
      unfold call_check_status
      simp only [] at e4
      rw [e4]
      simp [exynos_pd_status]
  · intro i j d hd
    rcases dt_parse_entries env nodes _ (get_drvdata_mem _ _ _ hd) with
      ⟨i1, j1, -, e2, e3, -⟩ | ⟨i1, np, e1, -⟩
    · refine ⟨e2, e3, ?_⟩
      intro env2 trace
      unfold call_check_status
      simp only [] at e3
      rw [e3]
    · cases e1

/-- Counterexample to C8 as stated: the logical sub-domain "A.sub" that
exynos_pd_dt_parse builds has no control function and no status query
installed, so a query on it returns no value at all, while the query on the
physical domain A asks the hardware. -/
theorem logical_domain_has_no_status_query :
    (exynos_pd_dt_parse env_ok dt_AB).1 = 0 ∧
    (∃ d, platform_get_drvdata (exynos_pd_dt_parse env_ok dt_AB).2 (node_ref.spd 0 0) =
        some d ∧
      d.name = "A.sub" ∧ d.pd_control = none ∧ d.check_status = none ∧
      call_check_status env_ok d [] = none) ∧
    (∃ d, platform_get_drvdata (exynos_pd_dt_parse env_ok dt_AB).2 (node_ref.pd 0) =
        some d ∧
      call_check_status env_ok d [] =
        some (0, some d, [Event.mutex_lock "A", Event.cal_pd_status 1 0,
          Event.mutex_unlock "A"])) :=
  ⟨rfl, ⟨_, rfl, rfl, rfl, rfl, rfl⟩, ⟨_, rfl, rfl⟩⟩

/-- Witness for C8: the domains built for A and for its child "A.sub". -/
theorem status_query_on_physical_only_witness :
    (∀ (d : exynos_pm_domain),
      platform_get_drvdata (exynos_pd_dt_parse env_ok dt_AB).2 (node_ref.pd 0) = some d →
      d.check_status = some check_status_fn.exynos_pd_status ∧
      ∃ np, dt_AB[0]? = some np ∧ np.cal_id = some d.cal_pdid) ∧
    (∀ (d : exynos_pm_domain),
      platform_get_drvdata (exynos_pd_dt_parse env_ok dt_AB).2 (node_ref.spd 0 0) = some d →
      d.check_status = none ∧ call_check_status env_ok d [] = none) := by
  refine ⟨fun d hd => ?_, fun d hd => ?_⟩
  · obtain ⟨-, h2, h3, -⟩ := (status_query_on_physical_only env_ok dt_AB).1 0 d hd
    exact ⟨h2, h3⟩
  · obtain ⟨-, h2, h3⟩ := (status_query_on_physical_only env_ok dt_AB).2 0 0 d hd
    exact ⟨h2, h3 env_ok []⟩

end ExynosPd
